import Mathlib

set_option maxRecDepth 8192

/-!
Formal model of the kuk interactive board-mutation engine.

The definitions below are a shallow embedding of the Rust sources:
`src/model/card.rs`, `src/model/board.rs`, `src/model/config.rs`,
`src/storage/store.rs` and `src/tui/app.rs`.  Machine integers (`u32`
for card orders and WIP limits, `usize` for selections and indices)
are modelled as `Nat`, with explicit `% 2 ^ 32` (resp. `% 2 ^ 64`)
wrapping at the arithmetic sites where the Rust code can overflow in a
release build.  Rust panics (out-of-bounds indexing, `unwrap` on
`None`) are modelled by returning `none` from the step function.
External effects (the file system behind `Store`, `Ulid::new`,
`Utc::now`) are modelled by an explicit persisted-state component and
a per-event environment that decides the outcome of each gateway call
and supplies fresh identifiers and timestamps.
-/

namespace Kuk

/-- Modulus of the Rust `u32` type (card orders, WIP limits). -/
def u32Mod : Nat := 2 ^ 32

/-- Modulus of the Rust `usize` type on a 64-bit target (selections, indices). -/
def u64Mod : Nat := 2 ^ 64

/-- Wrapping `usize` decrement, as produced by `x - 1` / `wrapping_sub(1)`
on a 64-bit Rust target in a release build: zero wraps to `2^64 - 1`, any
other representable value is decremented (on the `usize` range this equals
`(n + (2^64 - 1)) % 2^64`). -/
def usub1 : Nat → Nat
  | 0 => u64Mod - 1
  | Nat.succ m => m

/-- JSON value, standing in for `serde_json::Value` (card extension
metadata and the persisted document shape).  Numbers are modelled as
integers: no numeric field of the persisted document is fractional. -/
inductive Json where
  | null : Json
  | bool : Bool → Json
  | num : Int → Json
  | str : String → Json
  | arr : List Json → Json
  | obj : List (String × Json) → Json

/-- Card value type, from `src/model/card.rs`.  `DateTime<Utc>` instants
are modelled as opaque naturals. -/
structure Card where
  id : String
  title : String
  column : String
  order : Nat
  description : Option String
  assignee : Option String
  labels : List String
  due : Option Nat
  created_at : Nat
  updated_at : Nat
  metadata : List (String × Json)
  archived : Bool

/-- Construction of a fresh card, from `Card::new`.  The ULID produced by
`Ulid::new()` and the instant produced by `Utc::now()` are supplied by the
caller's environment. -/
def Card.new (id : String) (now : Nat) (title : String) (column : String) : Card :=
  { id := id
    title := title
    column := column
    order := 0
    description := none
    assignee := none
    labels := []
    due := none
    created_at := now
    updated_at := now
    metadata := []
    archived := false }

/-- Column value type, from `src/model/board.rs`. -/
structure Column where
  name : String
  wip_limit : Option Nat

/-- Board value type, from `src/model/board.rs`. -/
structure Board where
  name : String
  columns : List Column
  cards : List Card

/-- Per-repository configuration, from `src/model/config.rs`. -/
structure RepoConfig where
  version : String
  default_board : String

/-- Stable insertion of a card into a list sorted by ascending `order`:
the inserted card is placed before every element whose order is not
strictly smaller.  Used to realise the stable `sort_by_key` of
`Vec::sort_by_key`. -/
def insertCard (x : Card) : List Card → List Card
  | [] => [x]
  | y :: ys => if y.order < x.order then y :: insertCard x ys else x :: y :: ys

/-- Stable sort of cards by ascending `order`, extensionally equal to Rust's
stable `sort_by_key(|c| c.order)`: a stable sort of a list by a key is
uniquely determined. -/
def sortCards : List Card → List Card
  | [] => []
  | x :: xs => insertCard x (sortCards xs)

/-- Stable insertion for the string sort used by `Store::list_boards`. -/
def insertStr (x : String) : List String → List String
  | [] => [x]
  | y :: ys => if y < x then y :: insertStr x ys else x :: y :: ys

/-- Stable sort of strings, realising `Vec::sort` in `Store::list_boards`. -/
def sortStr : List String → List String
  | [] => []
  | x :: xs => insertStr x (sortStr xs)

/-- Check that `pat` occurs at the head of `l`. -/
def charsPre : List Char → List Char → Bool
  | [], _ => true
  | _ :: _, [] => false
  | a :: as, b :: bs => a == b && charsPre as bs

/-- Check that `pat` occurs somewhere inside `l` (contiguously). -/
def charsSub (pat : List Char) : List Char → Bool
  | [] => pat.isEmpty
  | c :: t => charsPre pat (c :: t) || charsSub pat t

/-- Lower-cased character list of a string, realising `str::to_lowercase()`
(restricted to the simple one-to-one case mapping). -/
def toLowerChars (s : String) : List Char :=
  s.toList.map Char.toLower

/-- Removal of the last character, realising Rust's `String::pop`. -/
def strPop (s : String) : String :=
  String.mk s.toList.dropLast

/-- Digit-sequence part of the `usize` parse: one or more ASCII digits
whose value is below `2^64`. -/
def parseDigits (t : List Char) : Option Nat :=
  if t.isEmpty then none
  else if t.all (fun c => c.isDigit) then
    let n := t.foldl (fun acc c => acc * 10 + (c.toNat - 48)) 0
    if n < u64Mod then some n else none
  else none

/-- Parse of a `usize`, realising Rust's `str::parse::<usize>()`: an
optional leading `+`, then one or more ASCII digits, value below `2^64`. -/
def parseUsize (s : String) : Option Nat :=
  match s.toList with
  | '+' :: rest => parseDigits rest
  | l => parseDigits l

/-- Largest order among the non-archived cards of a column plus one (with
`u32` wrap), or zero when there are none; from `Board::next_order`. -/
def Board.next_order (b : Board) (column : String) : Nat :=
  match ((b.cards.filter (fun c => c.column == column && !c.archived)).map Card.order).max? with
  | some m => (m + 1) % u32Mod
  | none => 0

/-- Lookup of a card by identifier, from `Board::find_card`. -/
def Board.find_card (b : Board) (id : String) : Option Card :=
  b.cards.find? (fun c => c.id == id)

/-- Update of the first card with the given identifier, realising a
mutation through `Board::find_card_mut`. -/
def updateCard (id : String) (f : Card → Card) : List Card → List Card
  | [] => []
  | c :: rest => if c.id == id then f c :: rest else c :: updateCard id f rest

/-- Lookup of a card by 1-based display number over all non-archived cards
sorted by ascending order, from `Board::find_card_by_number`.  The Rust
code indexes at `number.wrapping_sub(1)`. -/
def Board.find_card_by_number (b : Board) (number : Nat) : Option Card :=
  let active := sortCards (b.cards.filter (fun c => !c.archived))
  active.get? (usub1 number)

/-- Resolution of an identifier-or-number token, from `Board::resolve_card_id`. -/
def Board.resolve_card_id (b : Board) (id_or_num : String) : Option String :=
  match parseUsize id_or_num with
  | some num => (b.find_card_by_number num).map Card.id
  | none => (b.find_card id_or_num).map Card.id

/-- Interaction modes of the TUI, from `src/tui/app.rs`. -/
inductive Mode where
  | Normal
  | Insert
  | Search
  | Help
  | Confirm
  | BoardPicker
deriving DecidableEq

/-- Pending confirmation action, from `src/tui/app.rs`. -/
inductive ConfirmAction where
  | Delete
deriving DecidableEq

/-- Key codes the handlers inspect, abstracting `crossterm::event::KeyCode`. -/
inductive KeyCode where
  | char : Char → KeyCode
  | enter
  | esc
  | backspace
  | up
  | down
  | left
  | right
deriving DecidableEq

/-- Key event: a code plus the CONTROL modifier (the only one the app reads). -/
structure KeyEvent where
  code : KeyCode
  ctrl : Bool
deriving DecidableEq

/-- UI state of the interactive session, from `struct App` (the `store`
field is factored out into `Sys`). -/
structure App where
  board : Board
  mode : Mode
  selected_col : Nat
  selected_row : Nat
  input_buf : String
  search_buf : String
  search_active : Bool
  message : Option String
  should_quit : Bool
  pending_confirm : Option ConfirmAction
  pending_g : Bool
  board_list : List String
  board_selected : Nat

/-- System state: the UI state plus the persisted documents behind `Store`
(the per-repository config and the board files), together with a count of
`save_board` attempts (used to observe persistence calls). -/
structure Sys where
  app : App
  config : RepoConfig
  boards : List (String × Board)
  boardSaves : Nat

/-- Outcome environment for one input event: whether each gateway call
made during the event succeeds, the error text it would surface, and the
fresh identifier / current instant the event would draw. -/
structure Env where
  loadConfigOk : Bool
  saveConfigOk : Bool
  loadBoardOk : Bool
  saveBoardOk : Bool
  listBoardsOk : Bool
  ioErr : String
  newId : String
  now : Nat

/-- Store a board document under its name, replacing any existing document
(`Store::save_board` overwrites the whole file). -/
def storePut (docs : List (String × Board)) (b : Board) : List (String × Board) :=
  match docs with
  | [] => [(b.name, b)]
  | (n, d) :: rest => if n == b.name then (n, b) :: rest else (n, d) :: storePut rest b

/-- Retrieve a board document by name. -/
def storeGet (docs : List (String × Board)) (name : String) : Option Board :=
  (docs.find? (fun p => p.1 == name)).map Prod.snd

/-- Gateway call `Store::load_config`. -/
def loadConfigG (s : Sys) (e : Env) : Except String RepoConfig :=
  if e.loadConfigOk then .ok s.config else .error e.ioErr

/-- Gateway call `Store::save_config`; on failure the persisted config is
unchanged (spec section 6: a failed gateway operation did not happen). -/
def saveConfigG (s : Sys) (e : Env) (c : RepoConfig) : Sys × Except String Unit :=
  if e.saveConfigOk then ({ s with config := c }, .ok ()) else (s, .error e.ioErr)

/-- Gateway call `Store::load_board`: fails on I/O trouble or when no
document exists under the name. -/
def loadBoardG (s : Sys) (e : Env) (name : String) : Except String Board :=
  if e.loadBoardOk then
    match storeGet s.boards name with
    | some b => .ok b
    | none => .error ("Board not found: " ++ name)
  else .error e.ioErr

/-- Gateway call `Store::save_board` on the app's current board; each
attempt is counted, and on failure the persisted documents are unchanged. -/
def saveBoardG (s : Sys) (e : Env) : Sys × Bool :=
  if e.saveBoardOk then
    ({ s with boards := storePut s.boards s.app.board, boardSaves := s.boardSaves + 1 }, true)
  else
    ({ s with boardSaves := s.boardSaves + 1 }, false)

/-- Gateway call `Store::list_boards`: the document names, sorted. -/
def listBoardsG (s : Sys) (e : Env) : Except String (List String) :=
  if e.listBoardsOk then .ok (sortStr (s.boards.map Prod.fst)) else .error e.ioErr

/-- Visible cards of a column: non-archived cards of that column sorted by
ascending order, then filtered by the active search query; from
`App::column_cards`. -/
def columnCards (a : App) (col_idx : Nat) : List Card :=
  match a.board.columns.get? col_idx with
  | none => []
  | some col =>
    let cards := sortCards (a.board.cards.filter (fun c => c.column == col.name && !c.archived))
    if a.search_active && !a.search_buf.toList.isEmpty then
      let query := toLowerChars a.search_buf
      cards.filter (fun c => charsSub query (toLowerChars c.title))
    else cards

/-- Currently selected card, from `App::current_card`. -/
def currentCard (a : App) : Option Card :=
  (columnCards a a.selected_col).get? a.selected_row

/-- Identifier of the currently selected card, from `App::current_card_id`. -/
def currentCardId (a : App) : Option String :=
  (currentCard a).map Card.id

/-- Clamping of the row selection to the visible count, from `App::clamp_row`. -/
def clampRow (a : App) : App :=
  let count := (columnCards a a.selected_col).length
  if count = 0 then { a with selected_row := 0 }
  else if a.selected_row ≥ count then { a with selected_row := count - 1 }
  else a

/-- Board reload from the persisted documents, from `App::reload_board`. -/
def reloadBoard (s : Sys) (e : Env) : Except String Sys :=
  match loadConfigG s e with
  | .error er => .error er
  | .ok config =>
    match loadBoardG s e config.default_board with
    | .error er => .error er
    | .ok b => .ok { s with app := { s.app with board := b } }

/-- Move of the selected card to the next column, from `App::move_card_right`.
Returns `none` at a Rust panic site (the column indexing, unreachable under
the guard). -/
def moveCardRight (s : Sys) (e : Env) : Option Sys :=
  let a := s.app
  let next_col := (a.selected_col + 1) % u64Mod
  if next_col ≥ a.board.columns.length then some s
  else
    match currentCardId a with
    | none => some s
    | some id =>
      match a.board.columns.get? next_col with
      | none => none
      | some colTo =>
        let toName := colTo.name
        let order := a.board.next_order toName
        match a.board.find_card id with
        | none => some s
        | some _ =>
          let cards1 :=
            updateCard id (fun c => { c with column := toName, order := order, updated_at := e.now })
              a.board.cards
          let a1 := { a with board := { a.board with cards := cards1 } }
          let (s1, _) := saveBoardG { s with app := a1 } e
          some { s1 with app := clampRow { s1.app with message := some ("Moved → " ++ toName) } }

/-- Move of the selected card to the previous column, from `App::move_card_left`. -/
def moveCardLeft (s : Sys) (e : Env) : Option Sys :=
  let a := s.app
  if a.selected_col = 0 then some s
  else
    let prev_col := a.selected_col - 1
    match currentCardId a with
    | none => some s
    | some id =>
      match a.board.columns.get? prev_col with
      | none => none
      | some colTo =>
        let toName := colTo.name
        let order := a.board.next_order toName
        match a.board.find_card id with
        | none => some s
        | some _ =>
          let cards1 :=
            updateCard id (fun c => { c with column := toName, order := order, updated_at := e.now })
              a.board.cards
          let a1 := { a with board := { a.board with cards := cards1 } }
          let (s1, _) := saveBoardG { s with app := a1 } e
          some { s1 with app := clampRow { s1.app with message := some ("Moved → " ++ toName) } }

/-- Hoist of the selected card to the top of its column, from
`App::hoist_card`: every other non-archived card of the column has its
order bumped by one (`u32` wrap), the card itself gets order zero.
Returns `none` at the `unwrap` panic site (unreachable: the identifier
comes from a card of the board). -/
def hoistCard (s : Sys) (e : Env) : Option Sys :=
  let a := s.app
  match currentCardId a with
  | none => some s
  | some id =>
    match a.board.find_card id with
    | none => none
    | some c0 =>
      let column := c0.column
      let bumped := a.board.cards.map (fun c =>
        if c.column == column && !c.archived && !(c.id == id) then
          { c with order := (c.order + 1) % u32Mod }
        else c)
      let cards2 := updateCard id (fun c => { c with order := 0, updated_at := e.now }) bumped
      let a1 := { a with board := { a.board with cards := cards2 } }
      let (s1, _) := saveBoardG { s with app := a1 } e
      some { s1 with app := { s1.app with selected_row := 0, message := some "Hoisted to top." } }

/-- Demote of the selected card to the bottom of its column, from
`App::demote_card`. -/
def demoteCard (s : Sys) (e : Env) : Option Sys :=
  let a := s.app
  match currentCardId a with
  | none => some s
  | some id =>
    match a.board.find_card id with
    | none => none
    | some c0 =>
      let column := c0.column
      let max_order := a.board.next_order column
      let cards1 :=
        updateCard id (fun c => { c with order := max_order, updated_at := e.now })
          a.board.cards
      let a1 := { a with board := { a.board with cards := cards1 } }
      let (s1, _) := saveBoardG { s with app := a1 } e
      let count := (columnCards s1.app s1.app.selected_col).length
      let a2 := if count > 0 then { s1.app with selected_row := count - 1 } else s1.app
      some { s1 with app := { a2 with message := some "Demoted to bottom." } }

/-- Archiving of the selected card, from `App::archive_card`. -/
def archiveCard (s : Sys) (e : Env) : Sys :=
  let a := s.app
  match currentCardId a with
  | none => s
  | some id =>
    let cards1 :=
      updateCard id (fun c => { c with archived := true, updated_at := e.now }) a.board.cards
    let a1 := match a.board.find_card id with
      | some c0 =>
        { a with board := { a.board with cards := cards1 },
                 message := some ("Archived: " ++ c0.title) }
      | none => a
    let (s1, _) := saveBoardG { s with app := a1 } e
    { s1 with app := clampRow s1.app }

/-- Deletion of the selected card, from `App::delete_current_card`. -/
def deleteCurrentCard (s : Sys) (e : Env) : Sys :=
  let a := s.app
  match currentCardId a with
  | none => s
  | some id =>
    let title := ((a.board.find_card id).map Card.title).getD ""
    let cards1 := a.board.cards.filter (fun c => !(c.id == id))
    let a1 := { a with board := { a.board with cards := cards1 } }
    let (s1, _) := saveBoardG { s with app := a1 } e
    let a2 := clampRow s1.app
    { s1 with app := { a2 with message := some ("Deleted: " ++ title) } }

/-- Opening of the board picker, from `App::open_board_picker`. -/
def openBoardPicker (s : Sys) (e : Env) : Sys :=
  let a := s.app
  match listBoardsG s e with
  | .ok boards =>
    let current := (boards.findIdx? (fun b => b == a.board.name)).getD 0
    { s with app := { a with
        board_list := boards, board_selected := current, mode := .BoardPicker,
        message := some "Switch board (Enter to select, Esc to cancel):" } }
  | .error er =>
    { s with app := { a with message := some ("Failed to list boards: " ++ er) } }

/-- Normal-mode input handling, from `App::handle_normal` (the Rust match
on disjoint key patterns is rendered as a first-match chain of tests). -/
def handleNormal (s : Sys) (e : Env) (key : KeyEvent) : Option Sys :=
  let a := s.app
  if key.code = .char 'q' then some { s with app := { a with should_quit := true } }
  else if key.code = .char 'j' ∨ key.code = .down then
    let a := { a with pending_g := false }
    let count := (columnCards a a.selected_col).length
    if count > 0 ∧ a.selected_row < count - 1 then
      some { s with app := { a with selected_row := a.selected_row + 1 } }
    else some { s with app := a }
  else if key.code = .char 'k' ∨ key.code = .up then
    let a := { a with pending_g := false }
    if a.selected_row > 0 then
      some { s with app := { a with selected_row := a.selected_row - 1 } }
    else some { s with app := a }
  else if key.code = .char 'h' ∨ key.code = .left then
    let a := { a with pending_g := false }
    if a.selected_col > 0 then
      some { s with app := clampRow { a with selected_col := a.selected_col - 1 } }
    else some { s with app := a }
  else if key.code = .char 'l' ∨ key.code = .right then
    let a := { a with pending_g := false }
    if a.selected_col < usub1 a.board.columns.length then
      some { s with app := clampRow { a with selected_col := a.selected_col + 1 } }
    else some { s with app := a }
  else if key.code = .char 'g' then
    if a.pending_g then
      some { s with app := { a with selected_row := 0, pending_g := false } }
    else
      some { s with app := { a with pending_g := true } }
  else if key.code = .char 'G' then
    let a := { a with pending_g := false }
    let count := (columnCards a a.selected_col).length
    if count > 0 then
      some { s with app := { a with selected_row := count - 1 } }
    else some { s with app := a }
  else if key.code = .char 'a' then
    some { s with app := { a with
      pending_g := false, mode := .Insert, input_buf := "",
      message := some "Add card (Enter to save, Esc to cancel):" } }
  else if key.code = .char 'd' then
    if a.pending_g then
      some { s with app := { a with pending_g := false } }
    else if (currentCard a).isSome then
      some { s with app := { a with
        mode := .Confirm, pending_confirm := some .Delete,
        message := some "Delete this card? (y/n)" } }
    else some s
  else if key.code = .char '>' ∨ key.code = .char 'L' then
    moveCardRight { s with app := { a with pending_g := false } } e
  else if key.code = .char '<' ∨ key.code = .char 'H' then
    moveCardLeft { s with app := { a with pending_g := false } } e
  else if key.code = .char 'K' then
    hoistCard { s with app := { a with pending_g := false } } e
  else if key.code = .char 'J' then
    demoteCard { s with app := { a with pending_g := false } } e
  else if key.code = .char 'x' then
    some (archiveCard { s with app := { a with pending_g := false } } e)
  else if key.code = .char '/' then
    some { s with app := { a with
      pending_g := false, mode := .Search, search_buf := "",
      search_active := true, message := some "Search:" } }
  else if key.code = .esc then
    some { s with app := clampRow { a with
      pending_g := false, search_active := false, search_buf := "", message := none } }
  else if key.code = .char '?' then
    some { s with app := { a with pending_g := false, mode := .Help } }
  else if key.code = .char 'r' then
    let s := { s with app := { a with pending_g := false } }
    match reloadBoard s e with
    | .error er =>
      some { s with app := { s.app with message := some ("Reload failed: " ++ er) } }
    | .ok s1 =>
      some { s1 with app := clampRow { s1.app with message := some "Board reloaded." } }
  else if key.code = .char 'b' then
    some (openBoardPicker { s with app := { a with pending_g := false } } e)
  else some { s with app := { a with pending_g := false } }

/-- Insert-mode input handling, from `App::handle_insert`.  Returns `none`
at the Rust panic site `self.board.columns[self.selected_col]`. -/
def handleInsert (s : Sys) (e : Env) (key : KeyEvent) : Option Sys :=
  let a := s.app
  match key.code with
  | .esc =>
    some { s with app := { a with mode := .Normal, input_buf := "", message := none } }
  | .enter =>
    if a.input_buf.toList.isEmpty then
      some { s with app := { a with input_buf := "", mode := .Normal } }
    else
      match a.board.columns.get? a.selected_col with
      | none => none
      | some col =>
        let card := { Card.new e.newId e.now a.input_buf col.name with
                        order := a.board.next_order col.name }
        let a1 := { a with board := { a.board with cards := a.board.cards ++ [card] } }
        let (s1, ok) := saveBoardG { s with app := a1 } e
        if ok then
          let a2 := { s1.app with
            message := some ("Added: " ++ s1.app.input_buf),
            selected_row := usub1 (columnCards s1.app s1.app.selected_col).length }
          some { s1 with app := { a2 with input_buf := "", mode := .Normal } }
        else
          some { s1 with app := { s1.app with
            message := some ("Save failed: " ++ e.ioErr), input_buf := "", mode := .Normal } }
  | .backspace =>
    some { s with app := { a with input_buf := strPop a.input_buf } }
  | .char c =>
    some { s with app := { a with input_buf := a.input_buf.push c } }
  | _ => some s

/-- Search-mode input handling, from `App::handle_search`. -/
def handleSearch (s : Sys) (_e : Env) (key : KeyEvent) : Option Sys :=
  let a := s.app
  match key.code with
  | .esc =>
    some { s with app := clampRow { a with
      mode := .Normal, search_active := false, search_buf := "", message := none } }
  | .enter =>
    some { s with app := { a with mode := .Normal, message := none, selected_row := 0 } }
  | .backspace =>
    some { s with app := { a with search_buf := strPop a.search_buf, selected_row := 0 } }
  | .char c =>
    some { s with app := { a with search_buf := a.search_buf.push c, selected_row := 0 } }
  | _ => some s

/-- Help-mode input handling, from `App::handle_help`. -/
def handleHelp (s : Sys) (_e : Env) (key : KeyEvent) : Option Sys :=
  let a := s.app
  if key.code = .esc ∨ key.code = .char 'q' ∨ key.code = .char '?' then
    some { s with app := { a with mode := .Normal } }
  else some s

/-- Confirm-mode input handling, from `App::handle_confirm`. -/
def handleConfirm (s : Sys) (e : Env) (key : KeyEvent) : Option Sys :=
  let a := s.app
  if key.code = .char 'y' ∨ key.code = .char 'Y' then
    let a1 := { a with pending_confirm := none }
    let s1 := match a.pending_confirm with
      | some .Delete => deleteCurrentCard { s with app := a1 } e
      | none => { s with app := a1 }
    some { s1 with app := { s1.app with mode := .Normal, message := none } }
  else
    some { s with app := { a with pending_confirm := none, mode := .Normal, message := none } }

/-- Board-picker input handling, from `App::handle_board_picker` (the Rust
match on disjoint key patterns is rendered as a first-match chain of
tests). -/
def handleBoardPicker (s : Sys) (e : Env) (key : KeyEvent) : Option Sys :=
  let a := s.app
  if key.code = .esc then
    some { s with app := { a with mode := .Normal, message := none } }
  else if key.code = .char 'j' ∨ key.code = .down then
    if !a.board_list.isEmpty ∧ a.board_selected < a.board_list.length - 1 then
      some { s with app := { a with board_selected := a.board_selected + 1 } }
    else some s
  else if key.code = .char 'k' ∨ key.code = .up then
    if a.board_selected > 0 then
      some { s with app := { a with board_selected := a.board_selected - 1 } }
    else some s
  else if key.code = .enter then
    match a.board_list.get? a.board_selected with
    | some name =>
      if name == a.board.name then
        some { s with app := { a with mode := .Normal, message := none } }
      else
        (match loadConfigG s e with
         | .ok config =>
           let config1 := { config with default_board := name }
           (match saveConfigG s e config1 with
            | (s1, .ok _) =>
              (match loadBoardG s1 e name with
               | .ok b =>
                 some { s1 with app := { s1.app with
                   board := b, selected_col := 0, selected_row := 0,
                   search_active := false, search_buf := "",
                   message := some ("Switched to board: " ++ name), mode := .Normal } }
               | .error er =>
                 some { s1 with app := { s1.app with
                   message := some ("Load board failed: " ++ er), mode := .Normal } })
            | (s1, .error er) =>
              some { s1 with app := { s1.app with
                message := some ("Save config failed: " ++ er), mode := .Normal } })
         | .error er =>
           some { s with app := { a with
             message := some ("Load config failed: " ++ er), mode := .Normal } })
    | none => some { s with app := { a with mode := .Normal } }
  else if key.code = .char 'q' then
    some { s with app := { a with mode := .Normal, message := none } }
  else some s

/-- Top-level key dispatch, from `App::handle_key`: Ctrl+C always quits,
otherwise the current mode's handler runs. -/
def handleKey (s : Sys) (e : Env) (key : KeyEvent) : Option Sys :=
  if key.ctrl && key.code == KeyCode.char 'c' then
    some { s with app := { s.app with should_quit := true } }
  else
    match s.app.mode with
    | .Normal => handleNormal s e key
    | .Insert => handleInsert s e key
    | .Search => handleSearch s e key
    | .Help => handleHelp s e key
    | .Confirm => handleConfirm s e key
    | .BoardPicker => handleBoardPicker s e key

/-- Fresh UI state over a loaded board, from `App::new`. -/
def App.new (b : Board) : App :=
  { board := b
    mode := .Normal
    selected_col := 0
    selected_row := 0
    input_buf := ""
    search_buf := ""
    search_active := false
    message := none
    should_quit := false
    pending_confirm := none
    pending_g := false
    board_list := []
    board_selected := 0 }

/-- Initial system states: the app was constructed by `App::new`, which
loads the board named by the persisted config. -/
def InitSys (s : Sys) : Prop :=
  ∃ b, storeGet s.boards s.config.default_board = some b ∧ s.app = App.new b

/-- Board with its archived cards dropped, used to state that archived
cards never influence a computation. -/
def stripArchived (b : Board) : Board :=
  { b with cards := b.cards.filter (fun c => !c.archived) }

/-- App with the archived cards of its board dropped. -/
def stripArchivedApp (a : App) : App :=
  { a with board := stripArchived a.board }

/- Permutation and sortedness facts about the stable sort. -/

lemma insertCard_perm (x : Card) (l : List Card) : (insertCard x l).Perm (x :: l) := by
  induction l with
  | nil => simp [insertCard]
  | cons y ys ih =>
    simp only [insertCard]
    by_cases h : y.order < x.order
    · simp only [if_pos h]
      exact ((ih.cons y).trans (List.Perm.swap x y ys))
    · simp only [if_neg h]
      exact List.Perm.refl _

lemma sortCards_perm (l : List Card) : (sortCards l).Perm l := by
  induction l with
  | nil => simp [sortCards]
  | cons x xs ih =>
    exact (insertCard_perm x (sortCards xs)).trans (ih.cons x)

lemma length_sortCards (l : List Card) : (sortCards l).length = l.length :=
  (sortCards_perm l).length_eq

lemma mem_sortCards {c : Card} {l : List Card} : c ∈ sortCards l ↔ c ∈ l :=
  (sortCards_perm l).mem_iff

lemma sorted_insertCard {x : Card} {l : List Card}
    (h : l.Pairwise (fun a b => a.order ≤ b.order)) :
    (insertCard x l).Pairwise (fun a b => a.order ≤ b.order) := by
  induction l with
  | nil => simp [insertCard]
  | cons y ys ih =>
    rw [List.pairwise_cons] at h
    obtain ⟨hy, hys⟩ := h
    simp only [insertCard]
    by_cases hlt : y.order < x.order
    · simp only [if_pos hlt]
      rw [List.pairwise_cons]
      refine ⟨?_, ih hys⟩
      intro z hz
      rcases List.mem_cons.1 (((insertCard_perm x ys).mem_iff).1 hz) with hz | hz
      · exact hz ▸ Nat.le_of_lt hlt
      · exact hy z hz
    · simp only [if_neg hlt]
      rw [List.pairwise_cons]
      refine ⟨?_, List.pairwise_cons.2 ⟨hy, hys⟩⟩
      intro z hz
      rcases List.mem_cons.1 hz with hz | hz
      · exact hz ▸ Nat.le_of_not_lt hlt
      · exact Nat.le_trans (Nat.le_of_not_lt hlt) (hy z hz)

lemma sorted_sortCards (l : List Card) :
    (sortCards l).Pairwise (fun a b => a.order ≤ b.order) := by
  induction l with
  | nil => simp [sortCards]
  | cons x xs ih => exact sorted_insertCard ih

lemma le_of_sorted_getLast? {l : List Card} {y : Card}
    (hs : l.Pairwise (fun a b => a.order ≤ b.order)) (hy : l.getLast? = some y) :
    ∀ a ∈ l, a.order ≤ y.order := by
  induction l with
  | nil => simp at hy
  | cons x xs ih =>
    intro a ha
    cases xs with
    | nil =>
      simp only [List.getLast?_singleton, Option.some.injEq] at hy
      rcases List.mem_cons.1 ha with ha | ha
      · subst ha; subst hy; exact Nat.le_refl _
      · simp at ha
    | cons z zs =>
      rw [List.getLast?_cons_cons] at hy
      rcases List.mem_cons.1 ha with ha | ha
      · subst ha
        have hz : y ∈ z :: zs := List.mem_of_mem_getLast? hy
        exact (List.pairwise_cons.1 hs).1 y hz
      · exact ih (List.pairwise_cons.1 hs).2 hy a ha

/-- In a list sorted by ascending order, an element whose order strictly
dominates every other element's order is the last element. -/
lemma getLast?_eq_of_strict_max {l : List Card} {x : Card}
    (hs : l.Pairwise (fun a b => a.order ≤ b.order)) (hx : x ∈ l)
    (hmax : ∀ y ∈ l, y ≠ x → y.order < x.order) :
    l.getLast? = some x := by
  have hne : l ≠ [] := by
    intro h; subst h; simp at hx
  obtain ⟨y, hy⟩ := Option.isSome_iff_exists.1 (List.getLast?_isSome.2 hne)
  have hymem : y ∈ l := List.mem_of_mem_getLast? hy
  by_cases hxy : y = x
  · exact hxy ▸ hy
  · exact absurd (le_of_sorted_getLast? hs hy x hx)
      (Nat.not_le_of_lt (hmax y hymem hxy))

/- Facts about `updateCard` and the filters used by the column views. -/

lemma updateCard_cons (id : String) (f : Card → Card) (c : Card) (rest : List Card) :
    updateCard id f (c :: rest) =
      if c.id = id then f c :: rest else c :: updateCard id f rest := by
  simp only [updateCard, beq_iff_eq]

lemma length_filter_updateCard {p : Card → Bool} {f : Card → Card} {id : String}
    (hf : ∀ c, p (f c) = p c) :
    ∀ l : List Card, ((updateCard id f l).filter p).length = (l.filter p).length := by
  intro l
  induction l with
  | nil => rfl
  | cons c rest ih =>
    simp only [updateCard_cons]
    by_cases h : c.id = id
    · rw [if_pos h]
      simp only [List.filter_cons, hf c]
      cases p c <;> simp
    · rw [if_neg h]
      simp only [List.filter_cons]
      cases hpc : p c <;> simp [ih]

lemma map_id_updateCard {f : Card → Card} {id : String}
    (hf : ∀ c, (f c).id = c.id) :
    ∀ l : List Card, (updateCard id f l).map Card.id = l.map Card.id := by
  intro l
  induction l with
  | nil => rfl
  | cons c rest ih =>
    simp only [updateCard_cons]
    by_cases h : c.id = id
    · rw [if_pos h]
      simp [hf c]
    · rw [if_neg h]
      simp [ih]

lemma updateCard_of_not_mem {f : Card → Card} {id : String} :
    ∀ {l : List Card}, id ∉ l.map Card.id → updateCard id f l = l := by
  intro l
  induction l with
  | nil => intro _; rfl
  | cons c rest ih =>
    intro h
    simp only [List.map_cons, List.mem_cons, not_or] at h
    have hc : ¬ c.id = id := fun hc => h.1 hc.symm
    simp only [updateCard_cons, if_neg hc, ih h.2]

lemma updateCard_eq_map_of_nodup {f : Card → Card} {id : String} :
    ∀ {l : List Card}, (l.map Card.id).Nodup →
      updateCard id f l = l.map (fun d => if d.id = id then f d else d) := by
  intro l
  induction l with
  | nil => intro _; rfl
  | cons c rest ih =>
    intro h
    simp only [List.map_cons, List.nodup_cons] at h
    simp only [updateCard_cons, List.map_cons]
    by_cases hc : c.id = id
    · rw [if_pos hc, if_pos hc]
      have hmap : rest.map (fun d => if d.id = id then f d else d) = rest := by
        conv_rhs => rw [← List.map_id rest]
        refine List.map_congr_left ?_
        intro d hd
        have : ¬ d.id = id := by
          intro hdid
          exact (hc ▸ h.1) (hdid ▸ (List.mem_map_of_mem Card.id hd))
        simp [this]
      rw [hmap]
    · rw [if_neg hc, if_neg hc, ih h.2]

lemma find_of_nodup {c : Card} :
    ∀ l : List Card, (l.map Card.id).Nodup → c ∈ l →
      l.find? (fun d => d.id == c.id) = some c := by
  intro l
  induction l with
  | nil => intro _ hc; simp at hc
  | cons d rest ih =>
    intro hnd hc
    simp only [List.map_cons, List.nodup_cons] at hnd
    rcases List.mem_cons.1 hc with hc | hc
    · subst hc
      simp [List.find?_cons]
    · have hd : (d.id == c.id) = false := by
        simp only [beq_eq_false_iff_ne, ne_eq]
        intro hdc
        exact hnd.1 (hdc ▸ (List.mem_map_of_mem Card.id hc))
      simp only [List.find?_cons, hd]
      exact ih hnd.2 hc

lemma find_card_of_nodup {b : Board} {c : Card}
    (hnd : (b.cards.map Card.id).Nodup) (hc : c ∈ b.cards) :
    b.find_card c.id = some c :=
  find_of_nodup b.cards hnd hc

/- Length characterisation of the visible column lists. -/

/-- Predicate selecting the non-archived cards of a column. -/
def colPred (col : Column) (c : Card) : Bool :=
  c.column == col.name && !c.archived

/-- Predicate of the active search filter (constantly true when no filter
applies). -/
def srchPred (a : App) (c : Card) : Bool :=
  !(a.search_active && !a.search_buf.toList.isEmpty) ||
    charsSub (toLowerChars a.search_buf) (toLowerChars c.title)

lemma columnCards_congr {a a' : App} (hb : a'.board = a.board)
    (hsa : a'.search_active = a.search_active) (hsb : a'.search_buf = a.search_buf) :
    ∀ i, columnCards a' i = columnCards a i := by
  intro i
  unfold columnCards
  rw [hb, hsa, hsb]

lemma columnCards_of_none {a : App} {i : Nat}
    (h : a.board.columns.get? i = none) : columnCards a i = [] := by
  simp only [columnCards, h]

lemma length_columnCards_eq {a : App} {i : Nat} {col : Column}
    (h : a.board.columns.get? i = some col) :
    (columnCards a i).length =
      (a.board.cards.filter (fun c => colPred col c && srchPred a c)).length := by
  simp only [columnCards, h]
  by_cases hs : (a.search_active && !a.search_buf.toList.isEmpty) = true
  · rw [if_pos hs]
    have hperm := (sortCards_perm
      (a.board.cards.filter (fun c => c.column == col.name && !c.archived))).filter
      (fun c => charsSub (toLowerChars a.search_buf) (toLowerChars c.title))
    rw [hperm.length_eq, List.filter_filter]
    congr 1
    refine List.filter_congr ?_
    intro c _
    simp only [colPred, srchPred, hs]
    cases hcol : (c.column == col.name && !c.archived) <;>
      cases hsub : charsSub (toLowerChars a.search_buf) (toLowerChars c.title) <;> simp
  · rw [if_neg hs]
    rw [length_sortCards]
    congr 1
    refine List.filter_congr ?_
    intro c _
    have hs' : (a.search_active && !a.search_buf.toList.isEmpty) = false :=
      Bool.not_eq_true _ ▸ (by simpa using hs)
    simp only [colPred, srchPred, hs']
    cases hcol : (c.column == col.name && !c.archived) <;> simp

lemma le_length_columnCards_append (a : App) (x : Card) (i : Nat) :
    (columnCards a i).length ≤
      (columnCards { a with board := { a.board with cards := a.board.cards ++ [x] } } i).length := by
  set a' : App := { a with board := { a.board with cards := a.board.cards ++ [x] } } with ha'
  cases h : a.board.columns.get? i with
  | none =>
    have h' : a'.board.columns.get? i = none := h
    rw [columnCards_of_none h, columnCards_of_none h']
  | some col =>
    have h' : a'.board.columns.get? i = some col := h
    rw [length_columnCards_eq h, length_columnCards_eq h']
    have hsame : srchPred a' = srchPred a := rfl
    have : a'.board.cards = a.board.cards ++ [x] := rfl
    rw [this, hsame, List.filter_append, List.length_append]
    exact Nat.le_add_right _ _

lemma length_columnCards_updateCard {a : App} {id : String} {f : Card → Card}
    (hf : ∀ c, (f c).column = c.column ∧ (f c).archived = c.archived ∧ (f c).title = c.title)
    (i : Nat) :
    (columnCards { a with board := { a.board with cards := updateCard id f a.board.cards } } i).length
      = (columnCards a i).length := by
  set a' : App := { a with board := { a.board with cards := updateCard id f a.board.cards } }
    with ha'
  cases h : a.board.columns.get? i with
  | none =>
    have h' : a'.board.columns.get? i = none := h
    rw [columnCards_of_none h, columnCards_of_none h']
  | some col =>
    have h' : a'.board.columns.get? i = some col := h
    rw [length_columnCards_eq h, length_columnCards_eq h']
    have hsame : srchPred a' = srchPred a := rfl
    have hcards : a'.board.cards = updateCard id f a.board.cards := rfl
    rw [hcards, hsame]
    refine length_filter_updateCard ?_ a.board.cards
    intro c
    simp only [colPred, srchPred, (hf c).1, (hf c).2.1, (hf c).2.2]

/- Row-selection invariant. -/

/-- Row invariant claimed for entry into Normal-mode handling: the row is
zero when the selected column's visible list is empty, and otherwise a
valid index into it. -/
def RowInv (a : App) : Prop :=
  if (columnCards a a.selected_col).length = 0 then a.selected_row = 0
  else a.selected_row < (columnCards a a.selected_col).length

lemma rowInv_of_zero {a : App} (h : a.selected_row = 0) : RowInv a := by
  unfold RowInv
  split
  · exact h
  · exact h ▸ Nat.pos_of_ne_zero (by assumption)

lemma rowInv_congr {a a' : App} (h : RowInv a)
    (hrow : a'.selected_row = a.selected_row) (hcol : a'.selected_col = a.selected_col)
    (hb : a'.board = a.board) (hsa : a'.search_active = a.search_active)
    (hsb : a'.search_buf = a.search_buf) : RowInv a' := by
  unfold RowInv at h ⊢
  rw [columnCards_congr hb hsa hsb, hcol, hrow]
  exact h

lemma rowInv_mono {a a' : App} (h : RowInv a)
    (hrow : a'.selected_row = a.selected_row)
    (hlen : (columnCards a a.selected_col).length ≤ (columnCards a' a'.selected_col).length) :
    RowInv a' := by
  unfold RowInv at h ⊢
  split
  · next hz =>
    rw [hrow]
    have : (columnCards a a.selected_col).length = 0 := Nat.le_zero.1 (hz ▸ hlen)
    rw [this] at h
    simpa using h
  · next hz =>
    rw [hrow]
    by_cases h0 : (columnCards a a.selected_col).length = 0
    · rw [h0] at h
      simp only [if_pos rfl] at h
      exact h ▸ Nat.pos_of_ne_zero hz
    · rw [if_neg h0] at h
      exact Nat.lt_of_lt_of_le h hlen

lemma archived_filter_absorb (p : Card → Bool) (l : List Card)
    (hp : ∀ c, p c = true → c.archived = false) :
    (l.filter (fun c => !c.archived)).filter p = l.filter p := by
  rw [List.filter_filter]
  refine List.filter_congr ?_
  intro c _
  cases hc : p c
  · simp [hc]
  · simp [hc, hp c hc]

lemma parseDigits_lt {t : List Char} {n : Nat} (h : parseDigits t = some n) : n < u64Mod := by
  simp only [parseDigits] at h
  split at h
  · simp at h
  · split at h
    · split at h
      · injection h with h
        subst h
        assumption
      · simp at h
    · simp at h

lemma parseUsize_lt {s : String} {n : Nat} (h : parseUsize s = some n) : n < u64Mod := by
  unfold parseUsize at h
  split at h <;> exact parseDigits_lt h

lemma usub1_of_pos {n : Nat} (h1 : 1 ≤ n) (h2 : n < u64Mod) : usub1 n = n - 1 := by
  cases n with
  | zero => omega
  | succ m => rfl

lemma usub1_zero : usub1 0 = u64Mod - 1 := rfl

lemma rowInv_clampRow (a : App) : RowInv (clampRow a) := by
  unfold clampRow
  by_cases h0 : (columnCards a a.selected_col).length = 0
  · rw [if_pos h0]
    exact rowInv_of_zero rfl
  · rw [if_neg h0]
    by_cases hge : a.selected_row ≥ (columnCards a a.selected_col).length
    · rw [if_pos hge]
      unfold RowInv
      have hcc : ∀ i, columnCards { a with selected_row := (columnCards a a.selected_col).length - 1 } i
          = columnCards a i := fun i => rfl
      rw [hcc, if_neg h0]
      exact Nat.sub_lt (Nat.pos_of_ne_zero h0) Nat.one_pos
    · rw [if_neg hge]
      unfold RowInv
      rw [if_neg h0]
      exact Nat.lt_of_not_le hge

lemma clampRow_board (a : App) : (clampRow a).board = a.board := by
  simp only [clampRow]
  split
  · rfl
  · split <;> rfl

lemma clampRow_mode (a : App) : (clampRow a).mode = a.mode := by
  simp only [clampRow]
  split
  · rfl
  · split <;> rfl

lemma clampRow_selected_col (a : App) : (clampRow a).selected_col = a.selected_col := by
  simp only [clampRow]
  split
  · rfl
  · split <;> rfl

lemma clampRow_search_active (a : App) : (clampRow a).search_active = a.search_active := by
  simp only [clampRow]
  split
  · rfl
  · split <;> rfl

lemma clampRow_search_buf (a : App) : (clampRow a).search_buf = a.search_buf := by
  simp only [clampRow]
  split
  · rfl
  · split <;> rfl

lemma clampRow_message (a : App) : (clampRow a).message = a.message := by
  simp only [clampRow]
  split
  · rfl
  · split <;> rfl

/- Claim C5. -/

/-- Claim C5: archived cards are excluded from `next_order`, from
positional resolution (`find_card_by_number`), and from every column's
visible card list (hence from its count), for every board — dropping the
archived cards from the board changes none of these computations — while
the archive operation itself never removes any card from the board's card
collection (the identifiers, in order, are preserved). -/
theorem C5_archived_excluded :
    (∀ (b : Board) (col : String), b.next_order col = (stripArchived b).next_order col)
  ∧ (∀ (b : Board) (n : Nat), b.find_card_by_number n = (stripArchived b).find_card_by_number n)
  ∧ (∀ (a : App) (i : Nat), columnCards a i = columnCards (stripArchivedApp a) i)
  ∧ (∀ (s : Sys) (e : Env),
      (archiveCard s e).app.board.cards.map Card.id = s.app.board.cards.map Card.id) := by
  refine ⟨?_, ?_, ?_, ?_⟩
  · intro b col
    unfold Board.next_order
    have h : (stripArchived b).cards.filter (fun c => c.column == col && !c.archived)
        = b.cards.filter (fun c => c.column == col && !c.archived) := by
      show (b.cards.filter (fun c => !c.archived)).filter _ = _
      refine archived_filter_absorb _ _ ?_
      intro c hc
      rcases Bool.and_eq_true_iff.1 hc with ⟨_, h2⟩
      simpa using h2
    rw [h]
  · intro b n
    unfold Board.find_card_by_number
    have h : (stripArchived b).cards.filter (fun c => !c.archived)
        = b.cards.filter (fun c => !c.archived) := by
      show (b.cards.filter (fun c => !c.archived)).filter _ = _
      refine archived_filter_absorb _ _ ?_
      intro c hc
      simpa using hc
    rw [h]
  · intro a i
    cases h : a.board.columns.get? i with
    | none =>
      rw [columnCards_of_none h,
        columnCards_of_none (show (stripArchivedApp a).board.columns.get? i = none from h)]
    | some col =>
      have h' : (stripArchivedApp a).board.columns.get? i = some col := h
      simp only [columnCards, h, h']
      have hfe : (stripArchivedApp a).board.cards.filter
            (fun c => c.column == col.name && !c.archived)
          = a.board.cards.filter (fun c => c.column == col.name && !c.archived) := by
        show (a.board.cards.filter (fun c => !c.archived)).filter _ = _
        refine archived_filter_absorb _ _ ?_
        intro c hc
        rcases Bool.and_eq_true_iff.1 hc with ⟨_, h2⟩
        simpa using h2
      rw [hfe]
      rfl
  · intro s e
    cases hid : currentCardId s.app with
    | none => simp only [archiveCard, hid]
    | some id =>
      cases hf : s.app.board.find_card id <;>
        cases hok : e.saveBoardOk <;>
          simp only [archiveCard, hid, hf, saveBoardG, hok, Bool.false_eq_true, if_false,
            if_true, clampRow_board] <;>
            first
              | rfl
              | exact @map_id_updateCard
                  (fun c => { c with archived := true, updated_at := e.now }) id
                  (fun c => rfl) s.app.board.cards

/- Claim C4. -/

/-- Positional lookup as the spec words it: sort the non-archived cards by
ascending order and take the identifier at index `N - 1`. -/
def manualPositional (b : Board) (n : Nat) : Option String :=
  ((sortCards (b.cards.filter (fun c => !c.archived))).get? (n - 1)).map Card.id

/-- Claim C4 exactly as stated: a token that parses as a positive integer
resolves positionally (sorted non-archived cards, index `N-1`), and a
token that does not parse as a positive integer is looked up as a literal
identifier. -/
def C4Statement (b : Board) (token : String) : Prop :=
  match parseUsize token with
  | some n =>
    if 1 ≤ n then b.resolve_card_id token = manualPositional b n
    else b.resolve_card_id token = (b.find_card token).map Card.id
  | none => b.resolve_card_id token = (b.find_card token).map Card.id

/-- Concrete-card builder for counterexamples (fixed creation instant). -/
def cexCard (id title column : String) (order : Nat) : Card :=
  { Card.new id 0 title column with order := order }

/-- Board holding one card whose identifier is the literal string "0". -/
def c4Board : Board :=
  { name := "b", columns := [⟨"todo", none⟩], cards := [cexCard "0" "zero" "todo" 0] }

/-- Claim C4 counterexample: the token "0" does not parse as a *positive*
integer, so per the claim it should be looked up as a literal identifier
and find the card with id "0"; the code instead parses it as `usize` 0,
resolves positionally at wrapped index `2^64 - 1`, and returns `none`. -/
theorem C4_counterexample : ¬ C4Statement c4Board "0" := by
  intro h
  exact Option.noConfusion (show (none : Option String) = some "0" from h)

/-- Claim C4, amended: for a board whose card count is below `2^64`, a
token parsing as `usize` `N ≥ 1` resolves to the identifier at index `N-1`
of the non-archived cards sorted by ascending order (`none` when out of
range) — exactly what manual sorting and indexing yields; a token parsing
as `usize` 0 resolves positionally too, at wrapped index `2^64 - 1`, hence
to `none` (never to a literal identifier); only a token that does not
parse as `usize` at all is looked up as a literal identifier. -/
theorem C4_resolution (b : Board) (token : String)
    (hlen : b.cards.length < u64Mod) :
    (∀ n, parseUsize token = some n → 1 ≤ n →
        b.resolve_card_id token = manualPositional b n)
  ∧ (parseUsize token = some 0 → b.resolve_card_id token = none)
  ∧ (parseUsize token = none →
        b.resolve_card_id token = (b.find_card token).map Card.id) := by
  refine ⟨?_, ?_, ?_⟩
  · intro n hp h1
    have hres : b.resolve_card_id token = (b.find_card_by_number n).map Card.id := by
      unfold Board.resolve_card_id
      rw [hp]
    rw [hres]
    simp only [Board.find_card_by_number, manualPositional]
    rw [usub1_of_pos h1 (parseUsize_lt hp)]
  · intro hp
    have hres : b.resolve_card_id token = (b.find_card_by_number 0).map Card.id := by
      unfold Board.resolve_card_id
      rw [hp]
    rw [hres]
    simp only [Board.find_card_by_number]
    rw [usub1_zero]
    have hlen2 : (sortCards (b.cards.filter (fun c => !c.archived))).length ≤ u64Mod - 1 := by
      rw [length_sortCards]
      have := List.length_filter_le (fun c => !c.archived) b.cards
      omega
    rw [List.get?_eq_none.2 hlen2]
    rfl
  · intro hp
    unfold Board.resolve_card_id
    rw [hp]

/-- Witness for C4: the amended claim applied to a concrete board and the
token "1", whose hypotheses hold. -/
theorem C4_witness :
    c4Board.cards.length < u64Mod ∧ c4Board.resolve_card_id "1" = manualPositional c4Board 1 :=
  ⟨by decide, (C4_resolution c4Board "1" (by decide)).1 1 (by decide) (by omega)⟩

/-- Concrete board for witnesses: one column, one card. -/
def c7Board : Board :=
  { name := "default", columns := [⟨"todo", none⟩], cards := [cexCard "a" "Task A" "todo" 0] }

/-- Concrete system state for witnesses. -/
def c7Sys : Sys :=
  { app := App.new c7Board
    config := ⟨"0.1.0", "default"⟩
    boards := [("default", c7Board)]
    boardSaves := 0 }

/-- Concrete all-succeeding environment for witnesses. -/
def c7Env : Env :=
  { loadConfigOk := true, saveConfigOk := true, loadBoardOk := true, saveBoardOk := true,
    listBoardsOk := true, ioErr := "io", newId := "N1", now := 7 }

/- Claim C7. -/


lemma handleKey_of_mode_normal (s : Sys) (e : Env) (key : KeyEvent)
    (hmode : s.app.mode = Mode.Normal) (hctrl : key.ctrl = false) :
    handleKey s e key = handleNormal s e key := by
  unfold handleKey
  rw [hctrl, hmode]
  rfl

lemma moveCardRight_guard (s : Sys) (e : Env)
    (h : s.app.board.columns.length ≤ (s.app.selected_col + 1) % u64Mod) :
    moveCardRight s e = some s := by
  simp only [moveCardRight]
  rw [if_pos h]

lemma moveCardLeft_guard (s : Sys) (e : Env) (h : s.app.selected_col = 0) :
    moveCardLeft s e = some s := by
  simp only [moveCardLeft]
  rw [if_pos h]

/-- Claim C7: with the selected column already the last one, the move-right
input in Normal mode is a no-op — the whole system state is unchanged
except for clearing the pending-g prefix: in particular the board, the
persisted documents, and the count of `save_board` calls are untouched;
symmetrically for move-left in the first column. -/
theorem C7_move_boundary_noop (s : Sys) (e : Env) (key : KeyEvent)
    (hmode : s.app.mode = Mode.Normal) (hctrl : key.ctrl = false)
    (hcols : 0 < s.app.board.columns.length)
    (hbound : s.app.board.columns.length < u64Mod) :
    ((key.code = KeyCode.char '>' ∨ key.code = KeyCode.char 'L') →
      s.app.selected_col = s.app.board.columns.length - 1 →
      handleKey s e key = some { s with app := { s.app with pending_g := false } })
  ∧ ((key.code = KeyCode.char '<' ∨ key.code = KeyCode.char 'H') →
      s.app.selected_col = 0 →
      handleKey s e key = some { s with app := { s.app with pending_g := false } }) := by
  obtain ⟨code, ctrl⟩ := key
  simp only at hctrl
  subst hctrl
  have hguard : s.app.selected_col = s.app.board.columns.length - 1 →
      s.app.board.columns.length ≤ (s.app.selected_col + 1) % u64Mod := by
    intro hcol
    rw [hcol]
    have h2 : s.app.board.columns.length - 1 + 1 = s.app.board.columns.length := by omega
    rw [h2, Nat.mod_eq_of_lt hbound]
  constructor
  · rintro (hk | hk) hcol
    · simp only at hk
      subst hk
      rw [handleKey_of_mode_normal s e _ hmode rfl]
      have harm : handleNormal s e ⟨KeyCode.char '>', false⟩
          = moveCardRight { s with app := { s.app with pending_g := false } } e := rfl
      rw [harm]
      exact moveCardRight_guard _ e (hguard hcol)
    · simp only at hk
      subst hk
      rw [handleKey_of_mode_normal s e _ hmode rfl]
      have harm : handleNormal s e ⟨KeyCode.char 'L', false⟩
          = moveCardRight { s with app := { s.app with pending_g := false } } e := rfl
      rw [harm]
      exact moveCardRight_guard _ e (hguard hcol)
  · rintro (hk | hk) hcol
    · simp only at hk
      subst hk
      rw [handleKey_of_mode_normal s e _ hmode rfl]
      have harm : handleNormal s e ⟨KeyCode.char '<', false⟩
          = moveCardLeft { s with app := { s.app with pending_g := false } } e := rfl
      rw [harm]
      exact moveCardLeft_guard _ e hcol
    · simp only at hk
      subst hk
      rw [handleKey_of_mode_normal s e _ hmode rfl]
      have harm : handleNormal s e ⟨KeyCode.char 'H', false⟩
          = moveCardLeft { s with app := { s.app with pending_g := false } } e := rfl
      rw [harm]
      exact moveCardLeft_guard _ e hcol

/-- Witness for C7: a concrete one-column system where both boundary
moves leave the state unchanged apart from the pending-g flag. -/
theorem C7_witness :
    handleKey c7Sys c7Env ⟨KeyCode.char '>', false⟩
      = some { c7Sys with app := { c7Sys.app with pending_g := false } } :=
  (C7_move_boundary_noop c7Sys c7Env ⟨KeyCode.char '>', false⟩ rfl rfl (by decide)
    (by decide)).1 (Or.inl rfl) (by decide)

/- Claim C3. -/

lemma columnCards_spec {a : App} {i : Nat} {c : Card} {col : Column}
    (hcol : a.board.columns.get? i = some col) (h : c ∈ columnCards a i) :
    c ∈ a.board.cards ∧ c.column = col.name ∧ c.archived = false ∧ srchPred a c = true := by
  simp only [columnCards, hcol] at h
  by_cases hs : (a.search_active && !a.search_buf.toList.isEmpty) = true
  · rw [if_pos hs] at h
    have h1 := List.mem_of_mem_filter h
    have hq := List.of_mem_filter h
    have h2 := mem_sortCards.1 h1
    have h3 := List.mem_of_mem_filter h2
    have hp := List.of_mem_filter h2
    rcases Bool.and_eq_true_iff.1 hp with ⟨hpc, hpa⟩
    refine ⟨h3, beq_iff_eq.1 hpc, by simpa using hpa, ?_⟩
    simp only [srchPred, hs, Bool.not_true, Bool.false_or]
    exact hq
  · rw [if_neg hs] at h
    have h2 := mem_sortCards.1 h
    have h3 := List.mem_of_mem_filter h2
    have hp := List.of_mem_filter h2
    rcases Bool.and_eq_true_iff.1 hp with ⟨hpc, hpa⟩
    refine ⟨h3, beq_iff_eq.1 hpc, by simpa using hpa, ?_⟩
    have hs' : (a.search_active && !a.search_buf.toList.isEmpty) = false := by
      simpa using hs
    simp only [srchPred, hs', Bool.not_false, Bool.true_or]

lemma currentCard_spec {a : App} {c : Card} (h : currentCard a = some c) :
    ∃ col, a.board.columns.get? a.selected_col = some col ∧
      c ∈ a.board.cards ∧ c.column = col.name ∧ c.archived = false ∧ srchPred a c = true := by
  have hmem : c ∈ columnCards a a.selected_col := List.get?_mem h
  cases hcol : a.board.columns.get? a.selected_col with
  | none =>
    rw [columnCards_of_none hcol] at hmem
    simp at hmem
  | some col =>
    obtain ⟨h1, h2, h3, h4⟩ := columnCards_spec hcol hmem
    exact ⟨col, rfl, h1, h2, h3, h4⟩

lemma currentCard_mem {a : App} {c : Card} (h : currentCard a = some c) :
    c ∈ a.board.cards := by
  obtain ⟨_, _, h1, _⟩ := currentCard_spec h
  exact h1

/-- List-level content of the hoist mutation, assuming unique identifiers
and no `u32` overflow among the column's non-archived cards: the bump of
every other non-archived card of the column followed by zeroing the
selected card equals a single pointwise map. -/
lemma hoist_cards_eq {cards : List Card} {c : Card} {now : Nat}
    (hnd : (cards.map Card.id).Nodup)
    (hbound : ∀ d ∈ cards, d.column = c.column → d.archived = false → d.order < u32Mod - 1) :
    updateCard c.id (fun d => { d with order := 0, updated_at := now })
        (cards.map (fun d =>
          if d.column == c.column && !d.archived && !(d.id == c.id) then
            { d with order := (d.order + 1) % u32Mod }
          else d))
      = cards.map (fun d =>
          if d.id = c.id then { d with order := 0, updated_at := now }
          else if d.column = c.column ∧ d.archived = false then { d with order := d.order + 1 }
          else d) := by
  have hgid : ∀ d : Card,
      ((fun d => if d.column == c.column && !d.archived && !(d.id == c.id) then
          { d with order := (d.order + 1) % u32Mod } else d) d).id = d.id := by
    intro d
    dsimp only
    split <;> rfl
  have hnd2 : ((cards.map (fun d =>
      if d.column == c.column && !d.archived && !(d.id == c.id) then
        { d with order := (d.order + 1) % u32Mod } else d)).map Card.id).Nodup := by
    rw [List.map_map]
    have hmm : cards.map (Card.id ∘ (fun d =>
        if d.column == c.column && !d.archived && !(d.id == c.id) then
          { d with order := (d.order + 1) % u32Mod } else d)) = cards.map Card.id :=
      List.map_congr_left fun d _ => hgid d
    rw [hmm]
    exact hnd
  rw [updateCard_eq_map_of_nodup hnd2, List.map_map]
  refine List.map_congr_left ?_
  intro d hd
  simp only [Function.comp]
  by_cases hdid : d.id = c.id
  · simp [hdid]
  · by_cases hcol : d.column = c.column
    · by_cases harch : d.archived = false
      · have hmod : (d.order + 1) % u32Mod = d.order + 1 :=
          Nat.mod_eq_of_lt (by have := hbound d hd hcol harch; omega)
        simp [hdid, hcol, harch, hmod]
      · have harch' : d.archived = true := by
          cases hda : d.archived
          · exact absurd hda harch
          · rfl
        simp [hdid, harch']
    · simp [hdid, hcol]

/-- Claim C3, exactly as stated: hoisting with a selected card zeroes its
order, bumps the order of every other non-archived card of the same column
by exactly one (so the hoisted order is strictly below every such
sibling's), leaves archived cards' orders unchanged, and zeroes the row
selection. -/
def C3Statement (s : Sys) (e : Env) : Prop :=
  ∀ c s', currentCard s.app = some c → hoistCard s e = some s' →
    s'.app.selected_row = 0 ∧
    (∀ d, d ∈ s.app.board.cards → d.id ≠ c.id → d.column = c.column → d.archived = false →
      ∃ d', d' ∈ s'.app.board.cards ∧ d'.id = d.id ∧ d'.order = d.order + 1 ∧ 0 < d'.order) ∧
    (∀ d, d ∈ s.app.board.cards → d.archived = true →
      ∃ d', d' ∈ s'.app.board.cards ∧ d'.id = d.id ∧ d'.order = d.order) ∧
    (∃ c', c' ∈ s'.app.board.cards ∧ c'.id = c.id ∧ c'.order = 0)

/-- Board for the C3 counterexample: the selected card "a" shares its
column with a sibling "b" whose order is `u32::MAX`. -/
def c3Board : Board :=
  { name := "default", columns := [⟨"todo", none⟩],
    cards := [cexCard "a" "Task A" "todo" 0, cexCard "b" "Task B" "todo" (u32Mod - 1)] }

/-- System state for the C3 counterexample. -/
def c3Sys : Sys :=
  { app := App.new c3Board
    config := ⟨"0.1.0", "default"⟩
    boards := [("default", c3Board)]
    boardSaves := 0 }

/-- Board after the counterexample hoist: "a" keeps order 0 with a fresh
update instant, and the sibling "b" wraps from `u32::MAX` to order 0. -/
def c3BoardAfter : Board :=
  { name := "default", columns := [⟨"todo", none⟩],
    cards := [{ cexCard "a" "Task A" "todo" 0 with updated_at := 7 },
              { cexCard "b" "Task B" "todo" (u32Mod - 1) with order := 0 }] }

/-- System state after the counterexample hoist. -/
def c3SysAfter : Sys :=
  { app := { App.new c3Board with
      board := c3BoardAfter, selected_row := 0, message := some "Hoisted to top." }
    config := ⟨"0.1.0", "default"⟩
    boards := [("default", c3BoardAfter)]
    boardSaves := 1 }

/-- Claim C3 counterexample: with the sibling's order at `u32::MAX`, the
hoist bump wraps it to 0 instead of increasing it by one, so the sibling's
order does not strictly increase and the hoisted card's order 0 is not
strictly below it. -/
theorem C3_counterexample : ¬ C3Statement c3Sys c7Env := by
  intro h
  obtain ⟨_, hsib, _, _⟩ := h (cexCard "a" "Task A" "todo" 0) c3SysAfter rfl rfl
  obtain ⟨d', hmem, hid, hord, _⟩ := hsib (cexCard "b" "Task B" "todo" (u32Mod - 1))
    (List.mem_cons_of_mem _ (List.mem_singleton.2 rfl)) (by decide) rfl rfl
  have hc : c3SysAfter.app.board.cards
      = [{ cexCard "a" "Task A" "todo" 0 with updated_at := 7 },
         { cexCard "b" "Task B" "todo" (u32Mod - 1) with order := 0 }] := rfl
  rw [hc] at hmem
  rcases List.mem_cons.1 hmem with hd | hd
  · have h1 : d'.id = "a" := by rw [hd]; rfl
    rw [hid] at h1
    exact absurd h1 (by decide)
  · rcases List.mem_cons.1 hd with hd | hd
    · have h1 : d'.order = 0 := by rw [hd]
      rw [hord] at h1
      exact absurd h1 (by decide)
    · simp at hd

/-- Claim C3, amended: under unique card identifiers and sibling orders
below `u32::MAX` (no overflow), hoisting the selected card zeroes its
order and refreshes its update instant, increments every other
non-archived card of its column by exactly one (hence strictly above the
hoisted card's order 0), leaves every other card — in particular every
archived card — unchanged, and zeroes the row selection. -/
theorem C3_hoist (s : Sys) (e : Env) (c : Card)
    (hcc : currentCard s.app = some c)
    (hnd : (s.app.board.cards.map Card.id).Nodup)
    (hbound : ∀ d ∈ s.app.board.cards, d.column = c.column → d.archived = false →
      d.order < u32Mod - 1) :
    ∃ s', hoistCard s e = some s' ∧ s'.app.selected_row = 0 ∧
      s'.app.board.cards = s.app.board.cards.map (fun d =>
        if d.id = c.id then { d with order := 0, updated_at := e.now }
        else if d.column = c.column ∧ d.archived = false then { d with order := d.order + 1 }
        else d) := by
  have hmem : c ∈ s.app.board.cards := currentCard_mem hcc
  have hfind : s.app.board.find_card c.id = some c := find_card_of_nodup hnd hmem
  have hid : currentCardId s.app = some c.id := by
    unfold currentCardId
    rw [hcc]
    rfl
  cases hok : e.saveBoardOk <;>
    simp only [hoistCard, hid, hfind, saveBoardG, hok, Bool.false_eq_true, if_false, if_true] <;>
      exact ⟨_, rfl, rfl, hoist_cards_eq hnd hbound⟩

/-- Witness for C3: the amended hoist theorem applied to a concrete
two-card column with small orders. -/
theorem C3_witness :
    ∃ s', hoistCard c7Sys c7Env = some s' ∧ s'.app.selected_row = 0 ∧
      s'.app.board.cards = c7Sys.app.board.cards.map (fun d =>
        if d.id = (cexCard "a" "Task A" "todo" 0).id then
          { d with order := 0, updated_at := c7Env.now }
        else if d.column = (cexCard "a" "Task A" "todo" 0).column ∧ d.archived = false then
          { d with order := d.order + 1 }
        else d) :=
  C3_hoist c7Sys c7Env (cexCard "a" "Task A" "todo" 0) rfl (by decide)
    (by intro d hd h1 h2; fin_cases hd; simp [cexCard, Card.new, u32Mod])

/- Claim C6. -/

/-- App with the cards of its board replaced. -/
def withCards (a : App) (cards : List Card) : App :=
  { a with board := { a.board with cards := cards } }

lemma sorted_columnCards (a : App) (i : Nat) :
    (columnCards a i).Pairwise (fun x y => x.order ≤ y.order) := by
  cases h : a.board.columns.get? i with
  | none =>
    rw [columnCards_of_none h]
    exact List.Pairwise.nil
  | some col =>
    simp only [columnCards, h]
    by_cases hs : (a.search_active && !a.search_buf.toList.isEmpty) = true
    · rw [if_pos hs]
      exact (sorted_sortCards _).filter _
    · rw [if_neg hs]
      exact sorted_sortCards _

lemma mem_columnCards_of {a : App} {i : Nat} {col : Column} {c : Card}
    (hcol : a.board.columns.get? i = some col) (hc : c ∈ a.board.cards)
    (hcc : c.column = col.name) (harch : c.archived = false) (hq : srchPred a c = true) :
    c ∈ columnCards a i := by
  simp only [columnCards, hcol]
  have hbase : c ∈ sortCards (a.board.cards.filter (fun d => d.column == col.name && !d.archived)) :=
    mem_sortCards.2 (List.mem_filter.2 ⟨hc, by simp [hcc, harch]⟩)
  by_cases hs : (a.search_active && !a.search_buf.toList.isEmpty) = true
  · rw [if_pos hs]
    refine List.mem_filter.2 ⟨hbase, ?_⟩
    have hq' := hq
    unfold srchPred at hq'
    rw [hs] at hq'
    simpa using hq'
  · rw [if_neg hs]
    exact hbase

lemma lt_next_order {b : Board} {col : String}
    (hbound : ∀ d ∈ b.cards, d.column = col → d.archived = false → d.order < u32Mod - 1)
    {y : Card} (hy : y ∈ b.cards) (hyc : y.column = col) (hya : y.archived = false) :
    y.order < b.next_order col := by
  unfold Board.next_order
  have hmem : y.order ∈ (b.cards.filter (fun c => c.column == col && !c.archived)).map Card.order :=
    List.mem_map_of_mem _ (List.mem_filter.2 ⟨hy, by simp [hyc, hya]⟩)
  cases hmax : ((b.cards.filter (fun c => c.column == col && !c.archived)).map Card.order).max? with
  | none =>
    rw [List.max?_eq_none_iff.1 hmax] at hmem
    simp at hmem
  | some m =>
    have hle : y.order ≤ m :=
      (List.max?_le_iff (fun _ _ _ => max_le_iff) hmax).1 (Nat.le_refl m) _ hmem
    have hmmem := List.max?_mem (fun a b => max_choice a b) hmax
    obtain ⟨d, hd, hdm⟩ := List.mem_map.1 hmmem
    have hdf := List.mem_of_mem_filter hd
    have hdp := List.of_mem_filter hd
    rcases Bool.and_eq_true_iff.1 hdp with ⟨hdc, hda⟩
    have hdb : d.order < u32Mod - 1 :=
      hbound d hdf (beq_iff_eq.1 hdc) (by simpa using hda)
    rw [hdm] at hdb
    have hmod : (m + 1) % u32Mod = m + 1 := Nat.mod_eq_of_lt (by omega)
    show y.order < (m + 1) % u32Mod
    rw [hmod]
    omega

/-- Absence of the moved card from the source column's visible list, when
the destination column's name differs from the source's. -/
lemma moved_absent {a : App} {c : Card} {colFrom : Column} {i : Nat}
    {newCol : String} {ord now : Nat}
    (hnd : (a.board.cards.map Card.id).Nodup)
    (hsrc : a.board.columns.get? i = some colFrom)
    (hne : newCol ≠ colFrom.name) :
    ∀ d ∈ columnCards (withCards a
        (updateCard c.id (fun d => { d with column := newCol, order := ord, updated_at := now })
          a.board.cards)) i, d.id ≠ c.id := by
  intro d hd hdid
  set a' : App := withCards a
    (updateCard c.id (fun d => { d with column := newCol, order := ord, updated_at := now })
      a.board.cards) with ha'
  have hsrc' : a'.board.columns.get? i = some colFrom := hsrc
  obtain ⟨hdmem, hdcol, _, _⟩ := columnCards_spec hsrc' hd
  have hcards : a'.board.cards = a.board.cards.map (fun d =>
      if d.id = c.id then { d with column := newCol, order := ord, updated_at := now } else d) :=
    updateCard_eq_map_of_nodup hnd
  rw [hcards] at hdmem
  obtain ⟨d0, hd0, hphi⟩ := List.mem_map.1 hdmem
  by_cases h0 : d0.id = c.id
  · rw [if_pos h0] at hphi
    have : d.column = newCol := by rw [← hphi]
    rw [hdcol] at this
    exact hne this.symm
  · rw [if_neg h0] at hphi
    rw [← hphi] at hdid
    exact h0 hdid

/-- The moved card is the last element of the destination column's visible
list: its fresh order is the destination's next-bottom order, which under
the no-overflow bound strictly dominates every other visible order there. -/
lemma moved_last {a : App} {c : Card} {colTo : Column} {j : Nat} {now : Nat}
    (hnd : (a.board.cards.map Card.id).Nodup)
    (hc : c ∈ a.board.cards) (harch : c.archived = false) (hsrch : srchPred a c = true)
    (hdst : a.board.columns.get? j = some colTo)
    (hbound : ∀ d ∈ a.board.cards, d.column = colTo.name → d.archived = false →
      d.order < u32Mod - 1) :
    (columnCards (withCards a
        (updateCard c.id (fun d => { d with
          column := colTo.name, order := a.board.next_order colTo.name, updated_at := now })
          a.board.cards)) j).getLast?
      = some { c with
          column := colTo.name, order := a.board.next_order colTo.name,
          updated_at := now } := by
  set a' : App := withCards a
    (updateCard c.id (fun d => { d with
      column := colTo.name, order := a.board.next_order colTo.name, updated_at := now })
      a.board.cards) with ha'
  have hdst' : a'.board.columns.get? j = some colTo := hdst
  have hcards : a'.board.cards = a.board.cards.map (fun d =>
      if d.id = c.id then
        { d with
          column := colTo.name, order := a.board.next_order colTo.name, updated_at := now }
      else d) :=
    updateCard_eq_map_of_nodup hnd
  refine getLast?_eq_of_strict_max (sorted_columnCards a' j) ?_ ?_
  · -- moved is visible in the destination column
    refine mem_columnCards_of hdst' ?_ rfl harch hsrch
    rw [hcards]
    have hmm := List.mem_map_of_mem (fun d =>
      if d.id = c.id then
        { d with
          column := colTo.name, order := a.board.next_order colTo.name, updated_at := now }
      else d) hc
    simpa using hmm
  · intro y hy hyne
    obtain ⟨hymem, hycol, hyarch, _⟩ := columnCards_spec hdst' hy
    rw [hcards] at hymem
    obtain ⟨y0, hy0, hphi⟩ := List.mem_map.1 hymem
    by_cases h0 : y0.id = c.id
    · exfalso
      have hy0c : y0 = c := List.inj_on_of_nodup_map hnd hy0 hc h0
      rw [if_pos h0, hy0c] at hphi
      exact hyne hphi.symm
    · rw [if_neg h0] at hphi
      rw [← hphi]
      rw [← hphi] at hycol hyarch
      exact lt_next_order hbound hy0 hycol hyarch

lemma moveCardRight_step (s : Sys) (e : Env) {c : Card} {colTo : Column}
    (hid : currentCardId s.app = some c.id)
    (hfind : s.app.board.find_card c.id = some c)
    (hdst : s.app.board.columns.get? ((s.app.selected_col + 1) % u64Mod) = some colTo)
    (hlt : (s.app.selected_col + 1) % u64Mod < s.app.board.columns.length) :
    ∃ s', moveCardRight s e = some s' ∧
      s'.app = clampRow { (withCards s.app (updateCard c.id (fun d => { d with
        column := colTo.name, order := s.app.board.next_order colTo.name,
        updated_at := e.now }) s.app.board.cards)) with
          message := some ("Moved → " ++ colTo.name) } := by
  simp only [moveCardRight, hid, hdst, hfind]
  rw [if_neg (Nat.not_le.mpr hlt)]
  cases hok : e.saveBoardOk <;>
    simp only [saveBoardG, hok, Bool.false_eq_true, if_false, if_true] <;>
      exact ⟨_, rfl, rfl⟩

lemma moveCardLeft_step (s : Sys) (e : Env) {c : Card} {colTo : Column}
    (hid : currentCardId s.app = some c.id)
    (hfind : s.app.board.find_card c.id = some c)
    (hpos : s.app.selected_col ≠ 0)
    (hdst : s.app.board.columns.get? (s.app.selected_col - 1) = some colTo) :
    ∃ s', moveCardLeft s e = some s' ∧
      s'.app = clampRow { (withCards s.app (updateCard c.id (fun d => { d with
        column := colTo.name, order := s.app.board.next_order colTo.name,
        updated_at := e.now }) s.app.board.cards)) with
          message := some ("Moved → " ++ colTo.name) } := by
  simp only [moveCardLeft, hid, hdst, hfind]
  rw [if_neg hpos]
  cases hok : e.saveBoardOk <;>
    simp only [saveBoardG, hok, Bool.false_eq_true, if_false, if_true] <;>
      exact ⟨_, rfl, rfl⟩

/-- Claim C6, exactly as stated (both directions): moving the selected card
sets its column to the adjacent column's name, its order to that
destination's next-bottom order computed before the move, refreshes its
update instant, and afterwards the card is absent from the source column's
visible list and is the last element of the destination column's visible
list. -/
def C6Statement (s : Sys) (e : Env) : Prop :=
  ∀ c, currentCard s.app = some c →
    (∀ s' colTo, moveCardRight s e = some s' →
      s.app.board.columns.get? ((s.app.selected_col + 1) % u64Mod) = some colTo →
      (∃ c', c' ∈ s'.app.board.cards ∧ c'.id = c.id ∧ c'.column = colTo.name ∧
        c'.order = s.app.board.next_order colTo.name ∧ c'.updated_at = e.now) ∧
      (∀ d ∈ columnCards s'.app s.app.selected_col, d.id ≠ c.id) ∧
      (columnCards s'.app ((s.app.selected_col + 1) % u64Mod)).getLast?
        = some { c with
            column := colTo.name, order := s.app.board.next_order colTo.name,
            updated_at := e.now })
  ∧ (∀ s' colTo, moveCardLeft s e = some s' →
      s.app.selected_col ≠ 0 →
      s.app.board.columns.get? (s.app.selected_col - 1) = some colTo →
      (∃ c', c' ∈ s'.app.board.cards ∧ c'.id = c.id ∧ c'.column = colTo.name ∧
        c'.order = s.app.board.next_order colTo.name ∧ c'.updated_at = e.now) ∧
      (∀ d ∈ columnCards s'.app s.app.selected_col, d.id ≠ c.id) ∧
      (columnCards s'.app (s.app.selected_col - 1)).getLast?
        = some { c with
            column := colTo.name, order := s.app.board.next_order colTo.name,
            updated_at := e.now })

/-- Board for the C6 counterexample: two columns that share the name
"todo", with the selected card in the first of them. -/
def c6Board : Board :=
  { name := "default", columns := [⟨"todo", none⟩, ⟨"todo", none⟩],
    cards := [cexCard "x" "Task X" "todo" 0] }

/-- System state for the C6 counterexample. -/
def c6Sys : Sys :=
  { app := App.new c6Board
    config := ⟨"0.1.0", "default"⟩
    boards := [("default", c6Board)]
    boardSaves := 0 }

/-- Board after the counterexample move: the card keeps the column name
"todo" with order bumped to the next-bottom value 1. -/
def c6BoardAfter : Board :=
  { name := "default", columns := [⟨"todo", none⟩, ⟨"todo", none⟩],
    cards := [{ cexCard "x" "Task X" "todo" 0 with order := 1, updated_at := 7 }] }

/-- System state after the counterexample move. -/
def c6SysAfter : Sys :=
  { app := { App.new c6Board with
      board := c6BoardAfter, message := some "Moved → todo" }
    config := ⟨"0.1.0", "default"⟩
    boards := [("default", c6BoardAfter)]
    boardSaves := 1 }

/-- Claim C6 counterexample: when the adjacent column has the same name as
the source column, the moved card's column string does not change, so the
card is still present in the source column's visible list, contradicting
the claimed absence. -/
theorem C6_counterexample : ¬ C6Statement c6Sys c7Env := by
  intro h
  obtain ⟨hright, _⟩ := h (cexCard "x" "Task X" "todo" 0) rfl
  obtain ⟨_, habs, _⟩ := hright c6SysAfter ⟨"todo", none⟩ rfl rfl
  have hcc : columnCards c6SysAfter.app c6Sys.app.selected_col
      = [{ cexCard "x" "Task X" "todo" 0 with order := 1, updated_at := 7 }] := rfl
  refine habs { cexCard "x" "Task X" "todo" 0 with order := 1, updated_at := 7 } ?_ rfl
  rw [hcc]
  exact List.mem_singleton.2 rfl

/-- Claim C6, amended: provided the adjacent column's name differs from
the source column's, card identifiers are unique, and the destination's
non-archived orders are below `u32::MAX` (no overflow of the next-bottom
order), moving the selected card right (resp. left) rewrites exactly that
card with the destination column name, the destination's next-bottom order
computed before the move, and a fresh update instant; afterwards no card
of the source column's visible list carries its identifier and it is the
last element of the destination column's visible list. -/
theorem C6_move (s : Sys) (e : Env) (c : Card)
    (hcc : currentCard s.app = some c)
    (hnd : (s.app.board.cards.map Card.id).Nodup) :
    (∀ colFrom colTo,
      s.app.board.columns.get? s.app.selected_col = some colFrom →
      s.app.board.columns.get? ((s.app.selected_col + 1) % u64Mod) = some colTo →
      colFrom.name ≠ colTo.name →
      (∀ d ∈ s.app.board.cards, d.column = colTo.name → d.archived = false →
        d.order < u32Mod - 1) →
      ∃ s', moveCardRight s e = some s' ∧
        s'.app.board.cards = updateCard c.id (fun d => { d with
          column := colTo.name, order := s.app.board.next_order colTo.name,
          updated_at := e.now }) s.app.board.cards ∧
        (∀ d ∈ columnCards s'.app s.app.selected_col, d.id ≠ c.id) ∧
        (columnCards s'.app ((s.app.selected_col + 1) % u64Mod)).getLast?
          = some { c with
              column := colTo.name, order := s.app.board.next_order colTo.name,
              updated_at := e.now })
  ∧ (∀ colFrom colTo,
      s.app.board.columns.get? s.app.selected_col = some colFrom →
      s.app.selected_col ≠ 0 →
      s.app.board.columns.get? (s.app.selected_col - 1) = some colTo →
      colFrom.name ≠ colTo.name →
      (∀ d ∈ s.app.board.cards, d.column = colTo.name → d.archived = false →
        d.order < u32Mod - 1) →
      ∃ s', moveCardLeft s e = some s' ∧
        s'.app.board.cards = updateCard c.id (fun d => { d with
          column := colTo.name, order := s.app.board.next_order colTo.name,
          updated_at := e.now }) s.app.board.cards ∧
        (∀ d ∈ columnCards s'.app s.app.selected_col, d.id ≠ c.id) ∧
        (columnCards s'.app (s.app.selected_col - 1)).getLast?
          = some { c with
              column := colTo.name, order := s.app.board.next_order colTo.name,
              updated_at := e.now }) := by
  have hid : currentCardId s.app = some c.id := by
    unfold currentCardId
    rw [hcc]
    rfl
  obtain ⟨colFrom0, hsrc0, hcmem, hccol, hcarch, hcsrch⟩ := currentCard_spec hcc
  have hfind : s.app.board.find_card c.id = some c := find_card_of_nodup hnd hcmem
  constructor
  · intro colFrom colTo hsrc hdst hname hbound
    obtain ⟨hlt, _⟩ := List.get?_eq_some.1 hdst
    obtain ⟨s', hstep, happ⟩ := moveCardRight_step s e hid hfind hdst hlt
    have hboard : s'.app.board = (withCards s.app (updateCard c.id (fun d => { d with
        column := colTo.name, order := s.app.board.next_order colTo.name,
        updated_at := e.now }) s.app.board.cards)).board := by
      rw [happ, clampRow_board]
    have hcongr : ∀ i, columnCards s'.app i
        = columnCards (withCards s.app (updateCard c.id (fun d => { d with
            column := colTo.name, order := s.app.board.next_order colTo.name,
            updated_at := e.now }) s.app.board.cards)) i := by
      refine columnCards_congr hboard ?_ ?_
      · rw [happ, clampRow_search_active]
      · rw [happ, clampRow_search_buf]
    refine ⟨s', hstep, ?_, ?_, ?_⟩
    · rw [hboard]
      rfl
    · intro d hd
      rw [hcongr] at hd
      exact moved_absent hnd hsrc (Ne.symm hname) d hd
    · rw [hcongr]
      exact moved_last hnd hcmem hcarch hcsrch hdst hbound
  · intro colFrom colTo hsrc hpos hdst hname hbound
    obtain ⟨s', hstep, happ⟩ := moveCardLeft_step s e hid hfind hpos hdst
    have hboard : s'.app.board = (withCards s.app (updateCard c.id (fun d => { d with
        column := colTo.name, order := s.app.board.next_order colTo.name,
        updated_at := e.now }) s.app.board.cards)).board := by
      rw [happ, clampRow_board]
    have hcongr : ∀ i, columnCards s'.app i
        = columnCards (withCards s.app (updateCard c.id (fun d => { d with
            column := colTo.name, order := s.app.board.next_order colTo.name,
            updated_at := e.now }) s.app.board.cards)) i := by
      refine columnCards_congr hboard ?_ ?_
      · rw [happ, clampRow_search_active]
      · rw [happ, clampRow_search_buf]
    refine ⟨s', hstep, ?_, ?_, ?_⟩
    · rw [hboard]
      rfl
    · intro d hd
      rw [hcongr] at hd
      exact moved_absent hnd hsrc (Ne.symm hname) d hd
    · rw [hcongr]
      exact moved_last hnd hcmem hcarch hcsrch hdst hbound

/-- Two-column board for the C6 witness. -/
def c6wBoard : Board :=
  { name := "default", columns := [⟨"todo", none⟩, ⟨"doing", none⟩],
    cards := [cexCard "x" "Task X" "todo" 0] }

/-- System state for the C6 witness. -/
def c6wSys : Sys :=
  { app := App.new c6wBoard
    config := ⟨"0.1.0", "default"⟩
    boards := [("default", c6wBoard)]
    boardSaves := 0 }

/-- Witness for C6: moving the only card of a two-column board to the
right lands it, alone and last, in the "doing" column. -/
theorem C6_witness :
    ∃ s', moveCardRight c6wSys c7Env = some s' ∧
      s'.app.board.cards = updateCard "x" (fun d => { d with
        column := "doing", order := 0, updated_at := 7 }) c6wBoard.cards ∧
      (∀ d ∈ columnCards s'.app 0, d.id ≠ "x") ∧
      (columnCards s'.app 1).getLast?
        = some { cexCard "x" "Task X" "todo" 0 with
            column := "doing", order := 0, updated_at := 7 } :=
  ((C6_move c6wSys c7Env (cexCard "x" "Task X" "todo" 0) rfl (by decide)).1
    ⟨"todo", none⟩ ⟨"doing", none⟩ rfl rfl (by decide)
    (by intro d hd h1 h2; fin_cases hd; simp [cexCard, Card.new] at h1))

/- Claim C2. -/

lemma handleKey_of_mode (s : Sys) (e : Env) (key : KeyEvent)
    (hctrl : key.ctrl = false) :
    (s.app.mode = Mode.Insert → handleKey s e key = handleInsert s e key)
  ∧ (s.app.mode = Mode.Search → handleKey s e key = handleSearch s e key)
  ∧ (s.app.mode = Mode.Help → handleKey s e key = handleHelp s e key)
  ∧ (s.app.mode = Mode.Confirm → handleKey s e key = handleConfirm s e key)
  ∧ (s.app.mode = Mode.BoardPicker → handleKey s e key = handleBoardPicker s e key) := by
  refine ⟨?_, ?_, ?_, ?_, ?_⟩ <;>
    · intro hmode
      unfold handleKey
      rw [hctrl, hmode]
      rfl

lemma storeGet_storePut (docs : List (String × Board)) (b : Board) :
    storeGet (storePut docs b) b.name = some b := by
  induction docs with
  | nil => simp [storePut, storeGet, List.find?_cons]
  | cons p rest ih =>
    obtain ⟨n, d⟩ := p
    simp only [storePut]
    by_cases hn : n = b.name
    · have hb : (n == b.name) = true := beq_iff_eq.2 hn
      rw [if_pos hb]
      simp [storeGet, List.find?_cons, hb]
    · have hb : (n == b.name) = false := by simp [hn]
      rw [hb]
      simp only [Bool.false_eq_true, if_false]
      simp [storeGet, List.find?_cons, hb] at ih ⊢
      exact ih

lemma length_columnCards_le (a : App) (i : Nat) :
    (columnCards a i).length ≤ a.board.cards.length := by
  cases h : a.board.columns.get? i with
  | none =>
    rw [columnCards_of_none h]
    exact Nat.zero_le _
  | some col =>
    rw [length_columnCards_eq h]
    exact List.length_filter_le _ _

/-- Card created on Insert-mode Enter, from `handle_insert`. -/
def insertedCard (s : Sys) (e : Env) (col : Column) : Card :=
  { Card.new e.newId e.now s.app.input_buf col.name with
    order := s.app.board.next_order col.name }

/-- App immediately after pushing the new card, before the row update. -/
def insertedApp (s : Sys) (e : Env) (col : Column) : App :=
  withCards s.app (s.app.board.cards ++ [insertedCard s e col])

lemma handleInsert_enter_step (s : Sys) (e : Env) (ctrl : Bool) {col : Column}
    (hok : e.saveBoardOk = true)
    (hne : s.app.input_buf.toList ≠ [])
    (hcol : s.app.board.columns.get? s.app.selected_col = some col) :
    handleInsert s e ⟨KeyCode.enter, ctrl⟩ = some
      { s with
        app := { (insertedApp s e col) with
          message := some ("Added: " ++ s.app.input_buf),
          selected_row := usub1 (columnCards (insertedApp s e col) s.app.selected_col).length,
          input_buf := "", mode := Mode.Normal },
        boards := storePut s.boards (insertedApp s e col).board,
        boardSaves := s.boardSaves + 1 } := by
  have hemp : s.app.input_buf.toList.isEmpty = false := by
    cases h : s.app.input_buf.toList
    · exact absurd h hne
    · rfl
  simp only [handleInsert, hemp, Bool.false_eq_true, if_false, hcol, saveBoardG, hok, if_true]
  rfl

/-- Claim C2, exactly as stated: in Insert mode with a non-empty buffer
and a persisting gateway, Enter appends exactly one new card (title from
the buffer, column from the selected column, order the column's
next-bottom), persists the board, returns to Normal, and sets the row
selection to the index of the last card of the selected column's visible
list — which presupposes that list is non-empty; with an empty buffer,
Enter only clears the buffer and returns to Normal. -/
def C2Statement (s : Sys) (e : Env) : Prop :=
  s.app.mode = Mode.Insert →
  e.saveBoardOk = true →
  ∀ s', handleKey s e ⟨KeyCode.enter, false⟩ = some s' →
    (s.app.input_buf.toList ≠ [] →
      ∃ col, s.app.board.columns.get? s.app.selected_col = some col ∧
        s'.app.board.cards = s.app.board.cards ++ [insertedCard s e col] ∧
        storeGet s'.boards s.app.board.name = some s'.app.board ∧
        s'.app.mode = Mode.Normal ∧
        columnCards s'.app s'.app.selected_col ≠ [] ∧
        s'.app.selected_row = (columnCards s'.app s'.app.selected_col).length - 1) ∧
    (s.app.input_buf.toList = [] →
      s' = { s with app := { s.app with input_buf := "", mode := Mode.Normal } })

/-- System state for the C2 counterexample: Insert mode with buffer "a"
while a committed filter "z" is active over an empty board. -/
def c2Sys : Sys :=
  { app := { App.new { name := "default", columns := [⟨"todo", none⟩], cards := [] } with
      mode := Mode.Insert, input_buf := "a", search_buf := "z", search_active := true }
    config := ⟨"0.1.0", "default"⟩
    boards := [("default", { name := "default", columns := [⟨"todo", none⟩], cards := [] })]
    boardSaves := 0 }

/-- Board after the counterexample insert. -/
def c2BoardAfter : Board :=
  { name := "default", columns := [⟨"todo", none⟩],
    cards := [{ Card.new "N1" 7 "a" "todo" with order := 0 }] }

/-- System state after the counterexample insert: the new card is hidden
by the filter, the visible list is empty, and the row selection underflows
to `2^64 - 1`. -/
def c2SysAfter : Sys :=
  { app := { c2Sys.app with
      board := c2BoardAfter, message := some "Added: a", selected_row := u64Mod - 1,
      input_buf := "", mode := Mode.Normal }
    config := ⟨"0.1.0", "default"⟩
    boards := [("default", c2BoardAfter)]
    boardSaves := 1 }

/-- Claim C2 counterexample: with an active filter that does not match the
new card's title and no other visible card, the visible list after the
insert is empty — there is no last card — and the code sets the row
selection to the `usize` underflow value `2^64 - 1`. -/
theorem C2_counterexample : ¬ C2Statement c2Sys c7Env := by
  intro h
  obtain ⟨hfull, _⟩ := h rfl rfl c2SysAfter rfl
  obtain ⟨col, _, _, _, _, hvis, _⟩ := hfull (by decide)
  exact hvis rfl

/-- Claim C2, amended: in Insert mode with a persisting gateway and a
non-empty buffer, Enter appends exactly one new card with the buffer
title, the selected column's name and its next-bottom order, persists the
board, and returns to Normal; provided the selected column's visible list
after the insertion is non-empty (in particular whenever no filter is
active), the row selection becomes its last index — when that list is
empty the code instead sets the row to the `usize` underflow value
`2^64 - 1`.  With an empty buffer, Enter only clears the buffer and
returns to Normal, mutating nothing else. -/
theorem C2_insert (s : Sys) (e : Env) (col : Column)
    (hmode : s.app.mode = Mode.Insert)
    (hok : e.saveBoardOk = true)
    (hcol : s.app.board.columns.get? s.app.selected_col = some col)
    (hlen : s.app.board.cards.length + 1 < u64Mod) :
    (s.app.input_buf.toList ≠ [] →
      columnCards (insertedApp s e col) s.app.selected_col ≠ [] →
      ∃ s', handleKey s e ⟨KeyCode.enter, false⟩ = some s' ∧
        s'.app.board.cards = s.app.board.cards ++ [insertedCard s e col] ∧
        storeGet s'.boards s.app.board.name = some s'.app.board ∧
        s'.app.mode = Mode.Normal ∧
        s'.app.selected_row = (columnCards s'.app s'.app.selected_col).length - 1 ∧
        columnCards s'.app s'.app.selected_col ≠ [])
  ∧ (s.app.input_buf.toList = [] →
      handleKey s e ⟨KeyCode.enter, false⟩
        = some { s with app := { s.app with input_buf := "", mode := Mode.Normal } }) := by
  have hdispatch := (handleKey_of_mode s e ⟨KeyCode.enter, false⟩ rfl).1 hmode
  constructor
  · intro hne hvis
    rw [hdispatch]
    rw [handleInsert_enter_step s e false hok hne hcol]
    refine ⟨_, rfl, rfl, ?_, rfl, ?_, ?_⟩
    · have : (insertedApp s e col).board.name = s.app.board.name := rfl
      rw [← this]
      exact storeGet_storePut s.boards (insertedApp s e col).board
    · show usub1 (columnCards (insertedApp s e col) s.app.selected_col).length
        = (columnCards (insertedApp s e col) s.app.selected_col).length - 1
      refine usub1_of_pos ?_ ?_
      · rcases Nat.eq_zero_or_pos (columnCards (insertedApp s e col) s.app.selected_col).length
          with h0 | h0
        · exact absurd (List.length_eq_zero.1 h0) hvis
        · exact h0
      · have h1 := length_columnCards_le (insertedApp s e col) s.app.selected_col
        have h2 : (insertedApp s e col).board.cards.length = s.app.board.cards.length + 1 := by
          show (s.app.board.cards ++ [insertedCard s e col]).length = _
          rw [List.length_append]
          rfl
        omega
    · show columnCards (insertedApp s e col) s.app.selected_col ≠ []
      exact hvis
  · intro hempty
    rw [hdispatch]
    have hemp : s.app.input_buf.toList.isEmpty = true := by rw [hempty]; rfl
    simp only [handleInsert, hemp, if_true]

/-- System state for the C2 witness: Insert mode, buffer "New", no filter. -/
def c2wSys : Sys :=
  { app := { App.new c7Board with mode := Mode.Insert, input_buf := "New" }
    config := ⟨"0.1.0", "default"⟩
    boards := [("default", c7Board)]
    boardSaves := 0 }

/-- Witness for C2: inserting "New" into the "todo" column of a one-card
board with no filter active lands it at the bottom and selects it. -/
theorem C2_witness :
    ∃ s', handleKey c2wSys c7Env ⟨KeyCode.enter, false⟩ = some s' ∧
      s'.app.board.cards = c2wSys.app.board.cards ++ [insertedCard c2wSys c7Env ⟨"todo", none⟩] ∧
      storeGet s'.boards c2wSys.app.board.name = some s'.app.board ∧
      s'.app.mode = Mode.Normal ∧
      s'.app.selected_row = (columnCards s'.app s'.app.selected_col).length - 1 ∧
      columnCards s'.app s'.app.selected_col ≠ [] :=
  (C2_insert c2wSys c7Env ⟨"todo", none⟩ rfl rfl rfl (by decide)).1 (by decide)
    (by intro hcontra; exact List.noConfusion (show ([] : List Card) = _ ∧ True from ⟨hcontra.symm, trivial⟩).1)

/- Claims C8 and C1. -/

/-- Claim C8: whenever a board switch succeeds (Enter in the board picker
on a different board, with the config load, config save and board load all
succeeding), the resulting state has column and row selection 0, the
search filter deactivated and the search buffer empty. -/
theorem C8_switch_resets (s : Sys) (e : Env) (name : String) (b : Board)
    (hmode : s.app.mode = Mode.BoardPicker)
    (hget : s.app.board_list.get? s.app.board_selected = some name)
    (hne : name ≠ s.app.board.name)
    (hlc : e.loadConfigOk = true) (hsc : e.saveConfigOk = true) (hlb : e.loadBoardOk = true)
    (hstore : storeGet s.boards name = some b) :
    ∃ s', handleKey s e ⟨KeyCode.enter, false⟩ = some s' ∧
      s'.app.selected_col = 0 ∧ s'.app.selected_row = 0 ∧
      s'.app.search_active = false ∧ s'.app.search_buf = "" ∧
      s'.app.board = b ∧ s'.app.mode = Mode.Normal ∧
      s'.config.default_board = name := by
  rw [(handleKey_of_mode s e ⟨KeyCode.enter, false⟩ rfl).2.2.2.2 hmode]
  have hbeq : (name == s.app.board.name) = false := by simp [hne]
  simp only [handleBoardPicker, hget, hbeq, Bool.false_eq_true, if_false,
    loadConfigG, hlc, if_true, saveConfigG, hsc, loadBoardG, hlb, hstore]
  exact ⟨_, rfl, rfl, rfl, rfl, rfl, rfl, rfl, rfl⟩

/-- Second board for the C8 witness. -/
def c8OtherBoard : Board :=
  { name := "other", columns := [⟨"x", none⟩], cards := [] }

/-- System state for the C8 witness: picker open with "other" selected. -/
def c8Sys : Sys :=
  { app := { App.new c7Board with
      mode := Mode.BoardPicker, board_list := ["default", "other"], board_selected := 1,
      search_active := true, search_buf := "z", selected_col := 0, selected_row := 0 }
    config := ⟨"0.1.0", "default"⟩
    boards := [("default", c7Board), ("other", c8OtherBoard)]
    boardSaves := 0 }

/-- Witness for C8: switching from "default" to "other" on a concrete
two-board store resets the selection and filter. -/
theorem C8_witness :
    ∃ s', handleKey c8Sys c7Env ⟨KeyCode.enter, false⟩ = some s' ∧
      s'.app.selected_col = 0 ∧ s'.app.selected_row = 0 ∧
      s'.app.search_active = false ∧ s'.app.search_buf = "" ∧
      s'.app.board = c8OtherBoard ∧ s'.app.mode = Mode.Normal ∧
      s'.config.default_board = "other" :=
  C8_switch_resets c8Sys c7Env "other" c8OtherBoard rfl rfl (by decide) rfl rfl rfl rfl

/-- Claim C1, exactly as stated: Enter in the board picker on a different
board either fully switches (persisted active-board name updated, picked
board loaded, selection reset, filter cleared, confirmation message) or,
on any failure, surfaces a message and returns to Normal with *no* partial
switch — neither the persisted active-board name nor the in-memory board,
selection or filter differ from before. -/
def C1Statement (s : Sys) (e : Env) : Prop :=
  ∀ name s', s.app.mode = Mode.BoardPicker →
    s.app.board_list.get? s.app.board_selected = some name →
    name ≠ s.app.board.name →
    handleKey s e ⟨KeyCode.enter, false⟩ = some s' →
    ((s'.config.default_board = name ∧
      (∃ b, storeGet s.boards name = some b ∧ s'.app.board = b) ∧
      s'.app.selected_col = 0 ∧ s'.app.selected_row = 0 ∧
      s'.app.search_active = false ∧ s'.app.search_buf = "" ∧
      s'.app.mode = Mode.Normal ∧ s'.app.message.isSome = true)
     ∨
     (s'.app.message.isSome = true ∧ s'.app.mode = Mode.Normal ∧
      s'.config.default_board = s.config.default_board ∧
      s'.app.board = s.app.board ∧
      s'.app.selected_col = s.app.selected_col ∧ s'.app.selected_row = s.app.selected_row ∧
      s'.app.search_active = s.app.search_active ∧ s'.app.search_buf = s.app.search_buf))

/-- System state for the C1 counterexample: the picker has "other"
selected while only "default" exists as a document. -/
def c1Sys : Sys :=
  { app := { App.new c7Board with
      mode := Mode.BoardPicker, board_list := ["default", "other"], board_selected := 1 }
    config := ⟨"0.1.0", "default"⟩
    boards := [("default", c7Board)]
    boardSaves := 0 }

/-- Environment for the C1 counterexample: config operations succeed but
the board load fails. -/
def c1Env : Env :=
  { loadConfigOk := true, saveConfigOk := true, loadBoardOk := false, saveBoardOk := true,
    listBoardsOk := true, ioErr := "io", newId := "N1", now := 7 }

/-- System state after the C1 counterexample Enter: the persisted config
already names "other" while the in-memory board is unchanged. -/
def c1SysAfter : Sys :=
  { app := { App.new c7Board with
      mode := Mode.Normal, board_list := ["default", "other"], board_selected := 1,
      message := some "Load board failed: io" }
    config := ⟨"0.1.0", "other"⟩
    boards := [("default", c7Board)]
    boardSaves := 0 }

/-- Claim C1 counterexample: when the config save succeeds but the board
load then fails, the persisted active-board name has already been switched
to the new board while the in-memory board is unchanged — a partial
switch, matching neither the full-switch case nor the claimed
nothing-changed failure case. -/
theorem C1_counterexample : ¬ C1Statement c1Sys c1Env := by
  intro h
  rcases h "other" c1SysAfter rfl rfl (by decide) rfl with hfull | hfail
  · obtain ⟨_, ⟨b, hb, _⟩, _⟩ := hfull
    rw [show storeGet c1Sys.boards "other" = none from rfl] at hb
    exact Option.noConfusion hb
  · obtain ⟨_, _, hconfig, _⟩ := hfail
    exact absurd hconfig (by decide)

/-- Claim C1, amended: Enter in the board picker on a different board
produces one of three outcomes, always ending in Normal with a message:
a full switch (config persisted, board loaded, selection reset, filter
cleared); a failure of the config load or config save, after which nothing
— persisted or in-memory — has changed; or a failure of the board load
after the config save succeeded, after which the persisted active-board
name already names the new board while the in-memory board, selection and
filter are unchanged. -/
theorem C1_board_switch (s : Sys) (e : Env) (name : String)
    (hmode : s.app.mode = Mode.BoardPicker)
    (hget : s.app.board_list.get? s.app.board_selected = some name)
    (hne : name ≠ s.app.board.name) :
    ∃ s', handleKey s e ⟨KeyCode.enter, false⟩ = some s' ∧ s'.app.mode = Mode.Normal ∧
      s'.boards = s.boards ∧ s'.app.message.isSome = true ∧
      ((∃ b, e.loadConfigOk = true ∧ e.saveConfigOk = true ∧ e.loadBoardOk = true ∧
        storeGet s.boards name = some b ∧
        s'.config.default_board = name ∧ s'.app.board = b ∧
        s'.app.selected_col = 0 ∧ s'.app.selected_row = 0 ∧
        s'.app.search_active = false ∧ s'.app.search_buf = "")
      ∨ ((e.loadConfigOk = false ∨ e.saveConfigOk = false) ∧
        s'.config = s.config ∧
        s'.app.board = s.app.board ∧ s'.app.selected_col = s.app.selected_col ∧
        s'.app.selected_row = s.app.selected_row ∧
        s'.app.search_active = s.app.search_active ∧
        s'.app.search_buf = s.app.search_buf)
      ∨ (e.loadConfigOk = true ∧ e.saveConfigOk = true ∧
        (e.loadBoardOk = false ∨ storeGet s.boards name = none) ∧
        s'.config.default_board = name ∧
        s'.app.board = s.app.board ∧ s'.app.selected_col = s.app.selected_col ∧
        s'.app.selected_row = s.app.selected_row ∧
        s'.app.search_active = s.app.search_active ∧
        s'.app.search_buf = s.app.search_buf)) := by
  rw [(handleKey_of_mode s e ⟨KeyCode.enter, false⟩ rfl).2.2.2.2 hmode]
  have hbeq : (name == s.app.board.name) = false := by simp [hne]
  simp only [handleBoardPicker, hget, hbeq, Bool.false_eq_true, if_false]
  cases hlc : e.loadConfigOk with
  | false =>
    simp only [loadConfigG, hlc, Bool.false_eq_true, if_false]
    exact ⟨_, rfl, rfl, rfl, rfl, Or.inr (Or.inl ⟨Or.inl trivial, rfl, rfl, rfl, rfl, rfl, rfl⟩)⟩
  | true =>
    simp only [loadConfigG, hlc, if_true]
    cases hsc : e.saveConfigOk with
    | false =>
      simp only [saveConfigG, hsc, Bool.false_eq_true, if_false]
      exact ⟨_, rfl, rfl, rfl, rfl, Or.inr (Or.inl ⟨Or.inr trivial, rfl, rfl, rfl, rfl, rfl, rfl⟩)⟩
    | true =>
      simp only [saveConfigG, hsc, if_true]
      cases hlb : e.loadBoardOk with
      | false =>
        simp only [loadBoardG, hlb, Bool.false_eq_true, if_false]
        exact ⟨_, rfl, rfl, rfl, rfl,
          Or.inr (Or.inr ⟨trivial, trivial, Or.inl trivial, rfl, rfl, rfl, rfl, rfl, rfl⟩)⟩
      | true =>
        simp only [loadBoardG, hlb, if_true]
        cases hst : storeGet s.boards name with
        | none =>
          exact ⟨_, rfl, rfl, rfl, rfl,
            Or.inr (Or.inr ⟨trivial, trivial, Or.inr rfl, rfl, rfl, rfl, rfl, rfl, rfl⟩)⟩
        | some b =>
          exact ⟨_, rfl, rfl, rfl, rfl,
            Or.inl ⟨b, trivial, trivial, trivial, rfl, rfl, rfl, rfl, rfl, rfl, rfl⟩⟩

/-- Witness for C1: the amended trichotomy applied to the concrete
partial-switch scenario (config save succeeds, board load fails). -/
theorem C1_witness :
    ∃ s', handleKey c1Sys c1Env ⟨KeyCode.enter, false⟩ = some s' ∧
      s'.app.mode = Mode.Normal ∧ s'.boards = c1Sys.boards ∧
      s'.app.message.isSome = true := by
  obtain ⟨s', h1, h2, h3, h4, _⟩ := C1_board_switch c1Sys c1Env "other" rfl rfl (by decide)
  exact ⟨s', h1, h2, h3, h4⟩

/- Claim C9. -/

/-- Lookup of a field in a JSON object (first occurrence of the key). -/
def jLookup (fields : List (String × Json)) (k : String) : Option Json :=
  (fields.find? (fun p => p.1 == k)).map Prod.snd

/-- Replace-or-append of a named document, as `fs::write` of one board
file under `.kuk/boards/{name}.json`. -/
def storePutDoc : List (String × Json) → String → Json → List (String × Json)
  | [], name, j => [(name, j)]
  | (n, d) :: rest, name, j =>
    if n == name then (n, j) :: rest else (n, d) :: storePutDoc rest name j

/-- Decoder for a JSON string. -/
def asStr : Json → Option String
  | .str s => some s
  | _ => none

/-- Decoder for a `u32` field (order, WIP limit): serde rejects values
outside the `u32` range. -/
def asU32 : Json → Option Nat
  | .num (Int.ofNat n) => if n < u32Mod then some n else none
  | _ => none

/-- Decoder for an opaque instant (`DateTime<Utc>` is modelled as a
natural number). -/
def asTime : Json → Option Nat
  | .num (Int.ofNat n) => some n
  | _ => none

/-- Decoder for a JSON boolean. -/
def asBool : Json → Option Bool
  | .bool b => some b
  | _ => none

/-- Decoder for a list of strings. -/
def asStrList : Json → Option (List String)
  | .arr xs => xs.mapM asStr
  | _ => none

/-- Decoder for an object kept as raw fields (the card metadata map). -/
def asObj : Json → Option (List (String × Json))
  | .obj fs => some fs
  | _ => none

/-- Optional field with `skip_serializing_if = "Option::is_none"` and
`default`: an absent key decodes to `none`, a present key must decode. -/
def getOptField (fs : List (String × Json)) (k : String) (p : Json → Option α) :
    Option (Option α) :=
  match jLookup fs k with
  | none => some none
  | some v => (p v).map some

/-- Field with a `#[serde(default)]` value: an absent key decodes to the
default, a present key must decode. -/
def getDefField (fs : List (String × Json)) (k : String) (p : Json → Option α) (dflt : α) :
    Option α :=
  match jLookup fs k with
  | none => some dflt
  | some v => p v

/-- Serialisation of a card, mirroring the serde-derived `Serialize` for
`Card` (declaration field order; optional fields omitted when `None`). -/
def encodeCard (c : Card) : Json :=
  .obj ([("id", .str c.id), ("title", .str c.title), ("column", .str c.column),
         ("order", .num c.order)]
    ++ (match c.description with | some d => [("description", .str d)] | none => [])
    ++ (match c.assignee with | some a => [("assignee", .str a)] | none => [])
    ++ [("labels", .arr (c.labels.map Json.str))]
    ++ (match c.due with | some d => [("due", .num d)] | none => [])
    ++ [("created_at", .num c.created_at), ("updated_at", .num c.updated_at),
        ("metadata", .obj c.metadata), ("archived", .bool c.archived)])

/-- Deserialisation of a card, mirroring the serde-derived `Deserialize`
for `Card` (required fields plus the `default` attributes). -/
def decodeCard : Json → Option Card
  | .obj fs => do
    let id ← (jLookup fs "id").bind asStr
    let title ← (jLookup fs "title").bind asStr
    let column ← (jLookup fs "column").bind asStr
    let order ← (jLookup fs "order").bind asU32
    let description ← getOptField fs "description" asStr
    let assignee ← getOptField fs "assignee" asStr
    let labels ← getDefField fs "labels" asStrList []
    let due ← getOptField fs "due" asTime
    let created_at ← (jLookup fs "created_at").bind asTime
    let updated_at ← (jLookup fs "updated_at").bind asTime
    let metadata ← getDefField fs "metadata" asObj []
    let archived ← getDefField fs "archived" asBool false
    pure { id := id, title := title, column := column, order := order,
           description := description, assignee := assignee, labels := labels,
           due := due, created_at := created_at, updated_at := updated_at,
           metadata := metadata, archived := archived }
  | _ => none

/-- Serialisation of a column (`wip_limit` omitted when `None`). -/
def encodeColumn (col : Column) : Json :=
  .obj ([("name", .str col.name)]
    ++ (match col.wip_limit with | some w => [("wip_limit", .num w)] | none => []))

/-- Deserialisation of a column. -/
def decodeColumn : Json → Option Column
  | .obj fs => do
    let name ← (jLookup fs "name").bind asStr
    let wip ← getOptField fs "wip_limit" asU32
    pure ⟨name, wip⟩
  | _ => none

/-- Serialisation of a board document, as in spec section 6: `name`,
ordered `columns`, `cards`. -/
def encodeBoard (b : Board) : Json :=
  .obj [("name", .str b.name), ("columns", .arr (b.columns.map encodeColumn)),
        ("cards", .arr (b.cards.map encodeCard))]

/-- Deserialisation of a board document. -/
def decodeBoard : Json → Option Board
  | .obj fs => do
    let name ← (jLookup fs "name").bind asStr
    let columns ← (jLookup fs "columns").bind (fun v =>
      match v with
      | .arr xs => xs.mapM decodeColumn
      | _ => none)
    let cards ← (jLookup fs "cards").bind (fun v =>
      match v with
      | .arr xs => xs.mapM decodeCard
      | _ => none)
    pure ⟨name, columns, cards⟩
  | _ => none

/-- Persisting a board document, as `Store::save_board` (whole-document
overwrite keyed by the board's name). -/
def saveBoardDoc (docs : List (String × Json)) (b : Board) : List (String × Json) :=
  storePutDoc docs b.name (encodeBoard b)

/-- Reloading a board document by name, as `Store::load_board`. -/
def loadBoardDoc (docs : List (String × Json)) (name : String) : Option Board :=
  (jLookup docs name).bind decodeBoard

lemma jLookup_storePutDoc (docs : List (String × Json)) (name : String) (j : Json) :
    jLookup (storePutDoc docs name j) name = some j := by
  induction docs with
  | nil => simp [storePutDoc, jLookup, List.find?_cons]
  | cons p rest ih =>
    obtain ⟨n, d⟩ := p
    simp only [storePutDoc]
    by_cases hn : n = name
    · have hb : (n == name) = true := beq_iff_eq.2 hn
      rw [if_pos hb]
      simp [jLookup, List.find?_cons, hb]
    · have hb : (n == name) = false := by simp [hn]
      rw [hb]
      simp only [Bool.false_eq_true, if_false]
      simp [jLookup, List.find?_cons, hb] at ih ⊢
      exact ih

lemma asU32_encode {n : Nat} (h : n < u32Mod) : asU32 (Json.num n) = some n := by
  show (if n < u32Mod then some n else none) = some n
  rw [if_pos h]

lemma asTime_encode (n : Nat) : asTime (Json.num n) = some n := rfl

lemma asStrList_encode (xs : List String) : asStrList (Json.arr (xs.map Json.str)) = some xs := by
  simp only [asStrList]
  induction xs with
  | nil => rfl
  | cons x rest ih =>
    simp only [List.map_cons, List.mapM_cons, asStr, ih]
    rfl

lemma decode_encode_card {c : Card} (h : c.order < u32Mod) :
    decodeCard (encodeCard c) = some c := by
  obtain ⟨id, title, column, order, description, assignee, labels, due,
    created_at, updated_at, metadata, archived⟩ := c
  simp only at h
  have hu := asU32_encode h
  have hl := asStrList_encode labels
  cases description with
  | none =>
    cases assignee with
    | none =>
      cases due with
      | none =>
        have key : decodeCard (encodeCard ⟨id, title, column, order, none, none,
            labels, none, created_at, updated_at, metadata, archived⟩)
            = (asU32 (Json.num (order : Int))).bind (fun o =>
                (asStrList (Json.arr (labels.map Json.str))).bind (fun ls =>
                  some ⟨id, title, column, o, none, none, ls, none,
                    created_at, updated_at, metadata, archived⟩)) := rfl
        rw [key, hu, hl]; rfl
      | some u =>
        have key : decodeCard (encodeCard ⟨id, title, column, order, none, none,
            labels, some u, created_at, updated_at, metadata, archived⟩)
            = (asU32 (Json.num (order : Int))).bind (fun o =>
                (asStrList (Json.arr (labels.map Json.str))).bind (fun ls =>
                  some ⟨id, title, column, o, none, none, ls, some u,
                    created_at, updated_at, metadata, archived⟩)) := rfl
        rw [key, hu, hl]; rfl
    | some a =>
      cases due with
      | none =>
        have key : decodeCard (encodeCard ⟨id, title, column, order, none, some a,
            labels, none, created_at, updated_at, metadata, archived⟩)
            = (asU32 (Json.num (order : Int))).bind (fun o =>
                (asStrList (Json.arr (labels.map Json.str))).bind (fun ls =>
                  some ⟨id, title, column, o, none, some a, ls, none,
                    created_at, updated_at, metadata, archived⟩)) := rfl
        rw [key, hu, hl]; rfl
      | some u =>
        have key : decodeCard (encodeCard ⟨id, title, column, order, none, some a,
            labels, some u, created_at, updated_at, metadata, archived⟩)
            = (asU32 (Json.num (order : Int))).bind (fun o =>
                (asStrList (Json.arr (labels.map Json.str))).bind (fun ls =>
                  some ⟨id, title, column, o, none, some a, ls, some u,
                    created_at, updated_at, metadata, archived⟩)) := rfl
        rw [key, hu, hl]; rfl
  | some d =>
    cases assignee with
    | none =>
      cases due with
      | none =>
        have key : decodeCard (encodeCard ⟨id, title, column, order, some d, none,
            labels, none, created_at, updated_at, metadata, archived⟩)
            = (asU32 (Json.num (order : Int))).bind (fun o =>
                (asStrList (Json.arr (labels.map Json.str))).bind (fun ls =>
                  some ⟨id, title, column, o, some d, none, ls, none,
                    created_at, updated_at, metadata, archived⟩)) := rfl
        rw [key, hu, hl]; rfl
      | some u =>
        have key : decodeCard (encodeCard ⟨id, title, column, order, some d, none,
            labels, some u, created_at, updated_at, metadata, archived⟩)
            = (asU32 (Json.num (order : Int))).bind (fun o =>
                (asStrList (Json.arr (labels.map Json.str))).bind (fun ls =>
                  some ⟨id, title, column, o, some d, none, ls, some u,
                    created_at, updated_at, metadata, archived⟩)) := rfl
        rw [key, hu, hl]; rfl
    | some a =>
      cases due with
      | none =>
        have key : decodeCard (encodeCard ⟨id, title, column, order, some d, some a,
            labels, none, created_at, updated_at, metadata, archived⟩)
            = (asU32 (Json.num (order : Int))).bind (fun o =>
                (asStrList (Json.arr (labels.map Json.str))).bind (fun ls =>
                  some ⟨id, title, column, o, some d, some a, ls, none,
                    created_at, updated_at, metadata, archived⟩)) := rfl
        rw [key, hu, hl]; rfl
      | some u =>
        have key : decodeCard (encodeCard ⟨id, title, column, order, some d, some a,
            labels, some u, created_at, updated_at, metadata, archived⟩)
            = (asU32 (Json.num (order : Int))).bind (fun o =>
                (asStrList (Json.arr (labels.map Json.str))).bind (fun ls =>
                  some ⟨id, title, column, o, some d, some a, ls, some u,
                    created_at, updated_at, metadata, archived⟩)) := rfl
        rw [key, hu, hl]; rfl

lemma decode_encode_column {col : Column}
    (h : ∀ w, col.wip_limit = some w → w < u32Mod) :
    decodeColumn (encodeColumn col) = some col := by
  obtain ⟨name, wip⟩ := col
  cases hw : wip with
  | none =>
    simp [encodeColumn, decodeColumn, jLookup, List.find?_cons, asStr, getOptField]
  | some w =>
    have hwlt : w < u32Mod := h w (by rw [hw])
    simp [encodeColumn, decodeColumn, jLookup, List.find?_cons, asStr, getOptField,
      asU32_encode hwlt]

/-- Claim C9: saving a board through the gateway and reloading it by name
yields a board equal in all fields — the JSON serialisation of `Board`
composed with deserialisation is the identity (for boards whose `u32`
fields are in range, as every real board's are). -/
theorem C9_roundtrip (docs : List (String × Json)) (b : Board)
    (hcols : ∀ col ∈ b.columns, ∀ w, col.wip_limit = some w → w < u32Mod)
    (hcards : ∀ c ∈ b.cards, c.order < u32Mod) :
    loadBoardDoc (saveBoardDoc docs b) b.name = some b := by
  unfold loadBoardDoc saveBoardDoc
  rw [jLookup_storePutDoc]
  show decodeBoard (encodeBoard b) = some b
  obtain ⟨name, columns, cards⟩ := b
  simp only at hcols hcards
  have hcolsM : (columns.map encodeColumn).mapM decodeColumn = some columns := by
    induction columns with
    | nil => rfl
    | cons col rest ih =>
      simp only [List.map_cons, List.mapM_cons,
        decode_encode_column (hcols col (List.mem_cons_self col rest))]
      rw [ih (fun d hd => hcols d (List.mem_cons_of_mem col hd))]
      rfl
  have hcardsM : (cards.map encodeCard).mapM decodeCard = some cards := by
    induction cards with
    | nil => rfl
    | cons c rest ih =>
      simp only [List.map_cons, List.mapM_cons,
        decode_encode_card (hcards c (List.mem_cons_self c rest))]
      rw [ih (fun d hd => hcards d (List.mem_cons_of_mem c hd))]
      rfl
  simp only [List.mapM] at hcolsM hcardsM
  simp [encodeBoard, decodeBoard, jLookup, List.find?_cons, asStr, hcolsM, hcardsM]

/-- Concrete fully-populated board for the C9 witness. -/
def c9Board : Board :=
  { name := "full"
    columns := [⟨"todo", none⟩, ⟨"active", some 3⟩]
    cards := [{ cexCard "01H" "Full card" "active" 2 with
      description := some "A description", assignee := some "leslie",
      labels := ["bug", "urgent"], due := some 99, metadata := [("pr_url", Json.str "u")],
      archived := true }] }

/-- Witness for C9: the roundtrip theorem applied to a board exercising
every optional field, labels and metadata. -/
theorem C9_witness :
    loadBoardDoc (saveBoardDoc [] c9Board) c9Board.name = some c9Board :=
  C9_roundtrip [] c9Board
    (by intro col hcol w hw; fin_cases hcol <;> simp_all [u32Mod]; omega)
    (by intro c hc; fin_cases hc; simp [cexCard, Card.new, u32Mod])

/- Claim C10. -/

/-- Reachability between system states through handled key events whose
steps all satisfy the step predicate `P`. -/
inductive Reach (P : Sys → Env → KeyEvent → Prop) : Sys → Sys → Prop where
  | refl (s : Sys) : Reach P s s
  | step {s s' s'' : Sys} (e : Env) (k : KeyEvent) :
      Reach P s s' → P s' e k → handleKey s' e k = some s'' → Reach P s s''

/-- The one input event that breaks the row invariant: an Insert-mode
Enter commit (non-empty buffer, persisting gateway) whose freshly
inserted card is hidden by the active filter while nothing else is
visible in the selected column. -/
def UnsafeInsert (s : Sys) (e : Env) (k : KeyEvent) : Prop :=
  s.app.mode = Mode.Insert ∧ k.code = KeyCode.enter ∧
  s.app.input_buf.toList ≠ [] ∧ e.saveBoardOk = true ∧
  ∃ col, s.app.board.columns.get? s.app.selected_col = some col ∧
    (columnCards (insertedApp s e col) s.app.selected_col).length = 0

/-- A step is safe when it is not the row-underflowing insert commit. -/
def SafeKey (s : Sys) (e : Env) (k : KeyEvent) : Prop := ¬ UnsafeInsert s e k

lemma usub1_lt {n : Nat} (h : 1 ≤ n) : usub1 n < n := by
  cases n with
  | zero => omega
  | succ m =>
    show m < m + 1
    omega

lemma length_filter_and_le {α : Type} (p q : α → Bool) (l : List α) :
    (l.filter (fun x => p x && q x)).length ≤ (l.filter p).length := by
  induction l with
  | nil => simp
  | cons x xs ih =>
    simp only [List.filter_cons]
    cases hp : p x <;> cases hq : q x <;> simp [hp, hq] <;> omega

lemma length_columnCards_ge_of_true {a a' : App} (hb : a'.board = a.board)
    (htrue : ∀ c, srchPred a' c = true) (i : Nat) :
    (columnCards a i).length ≤ (columnCards a' i).length := by
  cases h : a.board.columns.get? i with
  | none =>
    have h' : a'.board.columns.get? i = none := by rw [hb]; exact h
    rw [columnCards_of_none h, columnCards_of_none h']
  | some col =>
    have h' : a'.board.columns.get? i = some col := by rw [hb]; exact h
    rw [length_columnCards_eq h, length_columnCards_eq h', hb]
    have hcong : a.board.cards.filter (fun c => colPred col c && srchPred a' c)
        = a.board.cards.filter (fun c => colPred col c) := by
      refine List.filter_congr ?_
      intro c _
      rw [htrue c, Bool.and_true]
    rw [hcong]
    exact length_filter_and_le _ _ _

lemma saveBoardG_fst_app (s : Sys) (e : Env) : (saveBoardG s e).1.app = s.app := by
  unfold saveBoardG
  split <;> rfl

lemma saveConfigG_fst_app (s : Sys) (e : Env) (c : RepoConfig) :
    (saveConfigG s e c).1.app = s.app := by
  unfold saveConfigG
  split <;> rfl

lemma rowInv_set_row (a : App) (r : Nat)
    (h : r = 0 ∨ r < (columnCards a a.selected_col).length) :
    RowInv { a with selected_row := r } := by
  unfold RowInv
  have hcc : ∀ i, columnCards { a with selected_row := r } i = columnCards a i :=
    fun i => rfl
  dsimp only
  rw [hcc]
  split
  · next hz =>
    rcases h with h | h
    · exact h
    · omega
  · next hz =>
    rcases h with h | h
    · omega
    · exact h

lemma rowInv_step_down (a : App)
    (h : (columnCards a a.selected_col).length > 0 ∧
      a.selected_row < (columnCards a a.selected_col).length - 1) :
    RowInv { a with selected_row := a.selected_row + 1 } :=
  rowInv_set_row a _ (Or.inr (by omega))

lemma rowInv_step_up (a : App) (hinv : RowInv a) (h : a.selected_row > 0) :
    RowInv { a with selected_row := a.selected_row - 1 } := by
  unfold RowInv at hinv
  refine rowInv_set_row a _ (Or.inr ?_)
  by_cases h0 : (columnCards a a.selected_col).length = 0
  · rw [if_pos h0] at hinv
    omega
  · rw [if_neg h0] at hinv
    omega

lemma rowInv_step_bottom (a : App)
    (h : (columnCards a a.selected_col).length > 0) :
    RowInv { a with selected_row := (columnCards a a.selected_col).length - 1 } :=
  rowInv_set_row a _ (Or.inr (by omega))

lemma rowInv_moveCardRight {s s' : Sys} {e : Env} (hinv : RowInv s.app)
    (hstep : moveCardRight s e = some s') : RowInv s'.app := by
  simp only [moveCardRight] at hstep
  split at hstep
  · cases hstep
    exact hinv
  · split at hstep
    · cases hstep
      exact hinv
    · split at hstep
      · exact Option.noConfusion hstep
      · split at hstep
        · cases hstep
          exact hinv
        · cases hstep
          exact rowInv_clampRow _

lemma rowInv_moveCardLeft {s s' : Sys} {e : Env} (hinv : RowInv s.app)
    (hstep : moveCardLeft s e = some s') : RowInv s'.app := by
  simp only [moveCardLeft] at hstep
  split at hstep
  · cases hstep
    exact hinv
  · split at hstep
    · cases hstep
      exact hinv
    · split at hstep
      · exact Option.noConfusion hstep
      · split at hstep
        · cases hstep
          exact hinv
        · cases hstep
          exact rowInv_clampRow _

lemma rowInv_hoistCard {s s' : Sys} {e : Env} (hinv : RowInv s.app)
    (hstep : hoistCard s e = some s') : RowInv s'.app := by
  simp only [hoistCard] at hstep
  split at hstep
  · cases hstep
    exact hinv
  · split at hstep
    · exact Option.noConfusion hstep
    · cases hstep
      exact rowInv_of_zero rfl

lemma rowInv_archiveCard {s : Sys} (e : Env) (hinv : RowInv s.app) :
    RowInv (archiveCard s e).app := by
  simp only [archiveCard]
  split
  · exact hinv
  · rename_i x id heq
    cases hfc : s.app.board.find_card id with
    | some c0 =>
      simp only [hfc]
      exact rowInv_clampRow _
    | none =>
      simp only [hfc]
      exact rowInv_clampRow _

lemma rowInv_deleteCurrentCard {s : Sys} (e : Env) (hinv : RowInv s.app) :
    RowInv (deleteCurrentCard s e).app := by
  simp only [deleteCurrentCard]
  split
  · exact hinv
  · exact rowInv_congr (rowInv_clampRow _) rfl rfl rfl rfl rfl

lemma rowInv_demote_final {b : App} (hb : RowInv b) (M : Option String) :
    RowInv { (if (columnCards b b.selected_col).length > 0
        then { b with selected_row := (columnCards b b.selected_col).length - 1 }
        else b) with message := M } := by
  split
  · next hc =>
    exact rowInv_congr (rowInv_step_bottom b hc) rfl rfl rfl rfl rfl
  · exact rowInv_congr hb rfl rfl rfl rfl rfl

lemma rowInv_demoteCard {s s' : Sys} {e : Env} (hinv : RowInv s.app)
    (hstep : demoteCard s e = some s') : RowInv s'.app := by
  simp only [demoteCard] at hstep
  split at hstep
  · cases hstep
    exact hinv
  · split at hstep
    · exact Option.noConfusion hstep
    · cases hstep
      rename_i x1 id heq1 x2 c0 heq2
      refine rowInv_demote_final ?_ _
      rw [saveBoardG_fst_app]
      refine rowInv_mono hinv rfl ?_
      exact Nat.le_of_eq
        (@length_columnCards_updateCard s.app id
          (fun c => { c with order := s.app.board.next_order c0.column, updated_at := e.now })
          (fun c => ⟨rfl, rfl, rfl⟩) s.app.selected_col).symm

lemma rowInv_openBoardPicker {s : Sys} (e : Env) (hinv : RowInv s.app) :
    RowInv (openBoardPicker s e).app := by
  simp only [openBoardPicker]
  split
  · exact rowInv_congr hinv rfl rfl rfl rfl rfl
  · exact rowInv_congr hinv rfl rfl rfl rfl rfl

lemma rowInv_arm_down {s s' : Sys} (hinv : RowInv s.app)
    (hstep : (let a := { s.app with pending_g := false }
              let count := (columnCards a a.selected_col).length
              if count > 0 ∧ a.selected_row < count - 1 then
                some { s with app := { a with selected_row := a.selected_row + 1 } }
              else some { s with app := a }) = some s') : RowInv s'.app := by
  simp only [] at hstep
  split at hstep
  · next hc =>
    cases hstep
    exact rowInv_step_down { s.app with pending_g := false } hc
  · cases hstep
    exact rowInv_congr hinv rfl rfl rfl rfl rfl

lemma rowInv_arm_up {s s' : Sys} (hinv : RowInv s.app)
    (hstep : (let a := { s.app with pending_g := false }
              if a.selected_row > 0 then
                some { s with app := { a with selected_row := a.selected_row - 1 } }
              else some { s with app := a }) = some s') : RowInv s'.app := by
  simp only [] at hstep
  split at hstep
  · next hc =>
    cases hstep
    exact rowInv_step_up { s.app with pending_g := false }
      (rowInv_congr hinv rfl rfl rfl rfl rfl) hc
  · cases hstep
    exact rowInv_congr hinv rfl rfl rfl rfl rfl

lemma rowInv_arm_left {s s' : Sys} (hinv : RowInv s.app)
    (hstep : (let a := { s.app with pending_g := false }
              if a.selected_col > 0 then
                some { s with app := clampRow { a with selected_col := a.selected_col - 1 } }
              else some { s with app := a }) = some s') : RowInv s'.app := by
  simp only [] at hstep
  split at hstep
  · cases hstep
    exact rowInv_clampRow _
  · cases hstep
    exact rowInv_congr hinv rfl rfl rfl rfl rfl

lemma rowInv_arm_right {s s' : Sys} (hinv : RowInv s.app)
    (hstep : (let a := { s.app with pending_g := false }
              if a.selected_col < usub1 a.board.columns.length then
                some { s with app := clampRow { a with selected_col := a.selected_col + 1 } }
              else some { s with app := a }) = some s') : RowInv s'.app := by
  simp only [] at hstep
  split at hstep
  · cases hstep
    exact rowInv_clampRow _
  · cases hstep
    exact rowInv_congr hinv rfl rfl rfl rfl rfl

lemma rowInv_arm_bottom {s s' : Sys} (hinv : RowInv s.app)
    (hstep : (let a := { s.app with pending_g := false }
              let count := (columnCards a a.selected_col).length
              if count > 0 then some { s with app := { a with selected_row := count - 1 } }
              else some { s with app := a }) = some s') : RowInv s'.app := by
  simp only [] at hstep
  split at hstep
  · next hc =>
    cases hstep
    exact rowInv_step_bottom { s.app with pending_g := false } hc
  · cases hstep
    exact rowInv_congr hinv rfl rfl rfl rfl rfl

lemma rowInv_arm_reload {s s' : Sys} {e : Env} (hinv : RowInv s.app)
    (hstep : (match reloadBoard { s with app := { s.app with pending_g := false } } e with
              | .error er => some { s with app := { s.app with
                  pending_g := false,
                  message := some ("Reload failed: " ++ er) } }
              | .ok s1 => some { s1 with app := clampRow { s1.app with
                  message := some "Board reloaded." } }) = some s') : RowInv s'.app := by
  split at hstep
  · cases hstep
    exact rowInv_congr hinv rfl rfl rfl rfl rfl
  · cases hstep
    exact rowInv_clampRow _

lemma rowInv_handleNormal {s s' : Sys} {e : Env} {k : KeyEvent}
    (hinv : RowInv s.app) (hstep : handleNormal s e k = some s') :
    RowInv s'.app := by
  obtain ⟨code, ctrl⟩ := k
  have hA : RowInv { s.app with pending_g := false } :=
    rowInv_congr hinv rfl rfl rfl rfl rfl
  cases code with
  | enter =>
    rw [show handleNormal s e ⟨KeyCode.enter, ctrl⟩
      = some { s with app := { s.app with pending_g := false } } from rfl] at hstep
    cases hstep
    exact hA
  | backspace =>
    rw [show handleNormal s e ⟨KeyCode.backspace, ctrl⟩
      = some { s with app := { s.app with pending_g := false } } from rfl] at hstep
    cases hstep
    exact hA
  | esc =>
    rw [show handleNormal s e ⟨KeyCode.esc, ctrl⟩
      = some { s with app := clampRow { s.app with
          pending_g := false,
          search_active := false, search_buf := "", message := none } } from rfl] at hstep
    cases hstep
    exact rowInv_clampRow _
  | down =>
    rw [show handleNormal s e ⟨KeyCode.down, ctrl⟩
      = (let a := { s.app with pending_g := false }
         let count := (columnCards a a.selected_col).length
         if count > 0 ∧ a.selected_row < count - 1 then
           some { s with app := { a with selected_row := a.selected_row + 1 } }
         else some { s with app := a }) from rfl] at hstep
    exact rowInv_arm_down hinv hstep
  | up =>
    rw [show handleNormal s e ⟨KeyCode.up, ctrl⟩
      = (let a := { s.app with pending_g := false }
         if a.selected_row > 0 then
           some { s with app := { a with selected_row := a.selected_row - 1 } }
         else some { s with app := a }) from rfl] at hstep
    exact rowInv_arm_up hinv hstep
  | left =>
    rw [show handleNormal s e ⟨KeyCode.left, ctrl⟩
      = (let a := { s.app with pending_g := false }
         if a.selected_col > 0 then
           some { s with app := clampRow { a with selected_col := a.selected_col - 1 } }
         else some { s with app := a }) from rfl] at hstep
    exact rowInv_arm_left hinv hstep
  | right =>
    rw [show handleNormal s e ⟨KeyCode.right, ctrl⟩
      = (let a := { s.app with pending_g := false }
         if a.selected_col < usub1 a.board.columns.length then
           some { s with app := clampRow { a with selected_col := a.selected_col + 1 } }
         else some { s with app := a }) from rfl] at hstep
    exact rowInv_arm_right hinv hstep
  | char c =>
    by_cases hcq : c = 'q'
    · subst hcq
      rw [show handleNormal s e ⟨KeyCode.char 'q', ctrl⟩
        = some { s with app := { s.app with should_quit := true } } from rfl] at hstep
      cases hstep
      exact rowInv_congr hinv rfl rfl rfl rfl rfl
    by_cases hcj : c = 'j'
    · subst hcj
      rw [show handleNormal s e ⟨KeyCode.char 'j', ctrl⟩
        = (let a := { s.app with pending_g := false }
           let count := (columnCards a a.selected_col).length
           if count > 0 ∧ a.selected_row < count - 1 then
             some { s with app := { a with selected_row := a.selected_row + 1 } }
           else some { s with app := a }) from rfl] at hstep
      exact rowInv_arm_down hinv hstep
    by_cases hck : c = 'k'
    · subst hck
      rw [show handleNormal s e ⟨KeyCode.char 'k', ctrl⟩
        = (let a := { s.app with pending_g := false }
           if a.selected_row > 0 then
             some { s with app := { a with selected_row := a.selected_row - 1 } }
           else some { s with app := a }) from rfl] at hstep
      exact rowInv_arm_up hinv hstep
    by_cases hch : c = 'h'
    · subst hch
      rw [show handleNormal s e ⟨KeyCode.char 'h', ctrl⟩
        = (let a := { s.app with pending_g := false }
           if a.selected_col > 0 then
             some { s with app := clampRow { a with selected_col := a.selected_col - 1 } }
           else some { s with app := a }) from rfl] at hstep
      exact rowInv_arm_left hinv hstep
    by_cases hcl : c = 'l'
    · subst hcl
      rw [show handleNormal s e ⟨KeyCode.char 'l', ctrl⟩
        = (let a := { s.app with pending_g := false }
           if a.selected_col < usub1 a.board.columns.length then
             some { s with app := clampRow { a with selected_col := a.selected_col + 1 } }
           else some { s with app := a }) from rfl] at hstep
      exact rowInv_arm_right hinv hstep
    by_cases hcg : c = 'g'
    · subst hcg
      rw [show handleNormal s e ⟨KeyCode.char 'g', ctrl⟩
        = (if s.app.pending_g then
             some { s with app := { s.app with selected_row := 0, pending_g := false } }
           else some { s with app := { s.app with pending_g := true } }) from rfl] at hstep
      split at hstep
      · cases hstep
        exact rowInv_of_zero rfl
      · cases hstep
        exact rowInv_congr hinv rfl rfl rfl rfl rfl
    by_cases hcG : c = 'G'
    · subst hcG
      rw [show handleNormal s e ⟨KeyCode.char 'G', ctrl⟩
        = (let a := { s.app with pending_g := false }
           let count := (columnCards a a.selected_col).length
           if count > 0 then some { s with app := { a with selected_row := count - 1 } }
           else some { s with app := a }) from rfl] at hstep
      exact rowInv_arm_bottom hinv hstep
    by_cases hca : c = 'a'
    · subst hca
      rw [show handleNormal s e ⟨KeyCode.char 'a', ctrl⟩
        = some { s with app := { s.app with
            pending_g := false, mode := Mode.Insert, input_buf := "",
            message := some "Add card (Enter to save, Esc to cancel):" } } from rfl] at hstep
      cases hstep
      exact rowInv_congr hinv rfl rfl rfl rfl rfl
    by_cases hcd : c = 'd'
    · subst hcd
      rw [show handleNormal s e ⟨KeyCode.char 'd', ctrl⟩
        = (if s.app.pending_g then some { s with app := { s.app with pending_g := false } }
           else if (currentCard s.app).isSome then
             some { s with app := { s.app with
               mode := Mode.Confirm,
               pending_confirm := some ConfirmAction.Delete,
               message := some "Delete this card? (y/n)" } }
           else some s) from rfl] at hstep
      split at hstep
      · cases hstep
        exact hA
      · split at hstep
        · cases hstep
          exact rowInv_congr hinv rfl rfl rfl rfl rfl
        · cases hstep
          exact hinv
    by_cases hcgt : c = '>'
    · subst hcgt
      rw [show handleNormal s e ⟨KeyCode.char '>', ctrl⟩
        = moveCardRight { s with app := { s.app with pending_g := false } } e
          from rfl] at hstep
      refine rowInv_moveCardRight ?_ hstep
      exact hA
    by_cases hcL : c = 'L'
    · subst hcL
      rw [show handleNormal s e ⟨KeyCode.char 'L', ctrl⟩
        = moveCardRight { s with app := { s.app with pending_g := false } } e
          from rfl] at hstep
      refine rowInv_moveCardRight ?_ hstep
      exact hA
    by_cases hclt : c = '<'
    · subst hclt
      rw [show handleNormal s e ⟨KeyCode.char '<', ctrl⟩
        = moveCardLeft { s with app := { s.app with pending_g := false } } e
          from rfl] at hstep
      refine rowInv_moveCardLeft ?_ hstep
      exact hA
    by_cases hcH : c = 'H'
    · subst hcH
      rw [show handleNormal s e ⟨KeyCode.char 'H', ctrl⟩
        = moveCardLeft { s with app := { s.app with pending_g := false } } e
          from rfl] at hstep
      refine rowInv_moveCardLeft ?_ hstep
      exact hA
    by_cases hcK : c = 'K'
    · subst hcK
      rw [show handleNormal s e ⟨KeyCode.char 'K', ctrl⟩
        = hoistCard { s with app := { s.app with pending_g := false } } e
          from rfl] at hstep
      refine rowInv_hoistCard ?_ hstep
      exact hA
    by_cases hcJ : c = 'J'
    · subst hcJ
      rw [show handleNormal s e ⟨KeyCode.char 'J', ctrl⟩
        = demoteCard { s with app := { s.app with pending_g := false } } e
          from rfl] at hstep
      refine rowInv_demoteCard ?_ hstep
      exact hA
    by_cases hcx : c = 'x'
    · subst hcx
      rw [show handleNormal s e ⟨KeyCode.char 'x', ctrl⟩
        = some (archiveCard { s with app := { s.app with pending_g := false } } e)
          from rfl] at hstep
      cases hstep
      exact rowInv_archiveCard e hA
    by_cases hcsl : c = '/'
    · subst hcsl
      rw [show handleNormal s e ⟨KeyCode.char '/', ctrl⟩
        = some { s with app := { s.app with
            pending_g := false, mode := Mode.Search, search_buf := "", search_active := true,
            message := some "Search:" } } from rfl] at hstep
      cases hstep
      exact rowInv_mono hinv rfl
        (@length_columnCards_ge_of_true s.app { s.app with
            pending_g := false, mode := Mode.Search, search_buf := "", search_active := true,
            message := some "Search:" }
          rfl (fun d => rfl) s.app.selected_col)
    by_cases hcqm : c = '?'
    · subst hcqm
      rw [show handleNormal s e ⟨KeyCode.char '?', ctrl⟩
        = some { s with app := { s.app with pending_g := false, mode := Mode.Help } }
          from rfl] at hstep
      cases hstep
      exact rowInv_congr hinv rfl rfl rfl rfl rfl
    by_cases hcr : c = 'r'
    · subst hcr
      rw [show handleNormal s e ⟨KeyCode.char 'r', ctrl⟩
        = (match reloadBoard { s with app := { s.app with pending_g := false } } e with
           | .error er => some { s with app := { s.app with
               pending_g := false,
               message := some ("Reload failed: " ++ er) } }
           | .ok s1 => some { s1 with app := clampRow { s1.app with
               message := some "Board reloaded." } }) from rfl] at hstep
      exact rowInv_arm_reload hinv hstep
    by_cases hcb : c = 'b'
    · subst hcb
      rw [show handleNormal s e ⟨KeyCode.char 'b', ctrl⟩
        = some (openBoardPicker { s with app := { s.app with pending_g := false } } e)
          from rfl] at hstep
      cases hstep
      exact rowInv_openBoardPicker e hA
    have n1 : ¬(KeyCode.char c = KeyCode.char 'q') := fun h => hcq (KeyCode.char.inj h)
    have n2 : ¬(KeyCode.char c = KeyCode.char 'j' ∨ KeyCode.char c = KeyCode.down) :=
      fun h => h.elim (fun h1 => hcj (KeyCode.char.inj h1)) (fun h2 => KeyCode.noConfusion h2)
    have n3 : ¬(KeyCode.char c = KeyCode.char 'k' ∨ KeyCode.char c = KeyCode.up) :=
      fun h => h.elim (fun h1 => hck (KeyCode.char.inj h1)) (fun h2 => KeyCode.noConfusion h2)
    have n4 : ¬(KeyCode.char c = KeyCode.char 'h' ∨ KeyCode.char c = KeyCode.left) :=
      fun h => h.elim (fun h1 => hch (KeyCode.char.inj h1)) (fun h2 => KeyCode.noConfusion h2)
    have n5 : ¬(KeyCode.char c = KeyCode.char 'l' ∨ KeyCode.char c = KeyCode.right) :=
      fun h => h.elim (fun h1 => hcl (KeyCode.char.inj h1)) (fun h2 => KeyCode.noConfusion h2)
    have n6 : ¬(KeyCode.char c = KeyCode.char 'g') := fun h => hcg (KeyCode.char.inj h)
    have n7 : ¬(KeyCode.char c = KeyCode.char 'G') := fun h => hcG (KeyCode.char.inj h)
    have n8 : ¬(KeyCode.char c = KeyCode.char 'a') := fun h => hca (KeyCode.char.inj h)
    have n9 : ¬(KeyCode.char c = KeyCode.char 'd') := fun h => hcd (KeyCode.char.inj h)
    have n10 : ¬(KeyCode.char c = KeyCode.char '>' ∨ KeyCode.char c = KeyCode.char 'L') :=
      fun h => h.elim (fun h1 => hcgt (KeyCode.char.inj h1)) (fun h2 => hcL (KeyCode.char.inj h2))
    have n11 : ¬(KeyCode.char c = KeyCode.char '<' ∨ KeyCode.char c = KeyCode.char 'H') :=
      fun h => h.elim (fun h1 => hclt (KeyCode.char.inj h1)) (fun h2 => hcH (KeyCode.char.inj h2))
    have n12 : ¬(KeyCode.char c = KeyCode.char 'K') := fun h => hcK (KeyCode.char.inj h)
    have n13 : ¬(KeyCode.char c = KeyCode.char 'J') := fun h => hcJ (KeyCode.char.inj h)
    have n14 : ¬(KeyCode.char c = KeyCode.char 'x') := fun h => hcx (KeyCode.char.inj h)
    have n15 : ¬(KeyCode.char c = KeyCode.char '/') := fun h => hcsl (KeyCode.char.inj h)
    have n16 : ¬(KeyCode.char c = KeyCode.esc) := fun h => KeyCode.noConfusion h
    have n17 : ¬(KeyCode.char c = KeyCode.char '?') := fun h => hcqm (KeyCode.char.inj h)
    have n18 : ¬(KeyCode.char c = KeyCode.char 'r') := fun h => hcr (KeyCode.char.inj h)
    have n19 : ¬(KeyCode.char c = KeyCode.char 'b') := fun h => hcb (KeyCode.char.inj h)
    rw [handleNormal.eq_def] at hstep
    rw [show (⟨KeyCode.char c, ctrl⟩ : KeyEvent).code = KeyCode.char c from rfl] at hstep
    rw [if_neg n1, if_neg n2, if_neg n3, if_neg n4, if_neg n5, if_neg n6, if_neg n7,
      if_neg n8, if_neg n9, if_neg n10, if_neg n11, if_neg n12, if_neg n13, if_neg n14,
      if_neg n15, if_neg n16, if_neg n17, if_neg n18, if_neg n19] at hstep
    cases hstep
    exact hA

lemma handleInsert_enter_fail_step (s : Sys) (e : Env) (ctrl : Bool) {col : Column}
    (hok : e.saveBoardOk = false)
    (hne : s.app.input_buf.toList ≠ [])
    (hcol : s.app.board.columns.get? s.app.selected_col = some col) :
    handleInsert s e ⟨KeyCode.enter, ctrl⟩ = some
      { s with
        app := { (insertedApp s e col) with
          message := some ("Save failed: " ++ e.ioErr), input_buf := "", mode := Mode.Normal },
        boardSaves := s.boardSaves + 1 } := by
  have hemp : s.app.input_buf.toList.isEmpty = false := by
    cases h : s.app.input_buf.toList
    · exact absurd h hne
    · rfl
  simp only [handleInsert, hemp, Bool.false_eq_true, if_false, hcol, saveBoardG, hok]
  rfl

lemma rowInv_handleInsert {s s' : Sys} {e : Env} {k : KeyEvent}
    (hinv : RowInv s.app) (hmode : s.app.mode = Mode.Insert)
    (hsafe : ¬ UnsafeInsert s e k)
    (hstep : handleInsert s e k = some s') : RowInv s'.app := by
  obtain ⟨code, ctrl⟩ := k
  cases code with
  | esc =>
    rw [show handleInsert s e ⟨KeyCode.esc, ctrl⟩ = some { s with app := { s.app with
        mode := Mode.Normal, input_buf := "", message := none } } from rfl] at hstep
    cases hstep
    exact rowInv_congr hinv rfl rfl rfl rfl rfl
  | backspace =>
    rw [show handleInsert s e ⟨KeyCode.backspace, ctrl⟩ = some { s with app := { s.app with
        input_buf := strPop s.app.input_buf } } from rfl] at hstep
    cases hstep
    exact rowInv_congr hinv rfl rfl rfl rfl rfl
  | char c =>
    rw [show handleInsert s e ⟨KeyCode.char c, ctrl⟩ = some { s with app := { s.app with
        input_buf := s.app.input_buf.push c } } from rfl] at hstep
    cases hstep
    exact rowInv_congr hinv rfl rfl rfl rfl rfl
  | up =>
    rw [show handleInsert s e ⟨KeyCode.up, ctrl⟩ = some s from rfl] at hstep
    cases hstep
    exact hinv
  | down =>
    rw [show handleInsert s e ⟨KeyCode.down, ctrl⟩ = some s from rfl] at hstep
    cases hstep
    exact hinv
  | left =>
    rw [show handleInsert s e ⟨KeyCode.left, ctrl⟩ = some s from rfl] at hstep
    cases hstep
    exact hinv
  | right =>
    rw [show handleInsert s e ⟨KeyCode.right, ctrl⟩ = some s from rfl] at hstep
    cases hstep
    exact hinv
  | enter =>
    by_cases hemp : s.app.input_buf.toList.isEmpty = true
    · simp only [handleInsert, hemp, if_true] at hstep
      cases hstep
      exact rowInv_congr hinv rfl rfl rfl rfl rfl
    · have hempf : s.app.input_buf.toList.isEmpty = false := by
        revert hemp
        cases s.app.input_buf.toList.isEmpty <;> simp
      have hne : s.app.input_buf.toList ≠ [] := by
        intro h0
        rw [h0] at hempf
        exact absurd hempf (by decide)
      cases hcol : s.app.board.columns.get? s.app.selected_col with
      | none =>
        simp only [handleInsert, hempf, Bool.false_eq_true, if_false, hcol] at hstep
        exact Option.noConfusion hstep
      | some col =>
        cases hok : e.saveBoardOk with
        | false =>
          rw [handleInsert_enter_fail_step s e ctrl hok hne hcol] at hstep
          cases hstep
          refine rowInv_mono hinv rfl ?_
          have hcc : ∀ i, columnCards { (insertedApp s e col) with
              message := some ("Save failed: " ++ e.ioErr), input_buf := "",
              mode := Mode.Normal } i = columnCards (insertedApp s e col) i :=
            fun i => rfl
          rw [hcc]
          exact le_length_columnCards_append s.app (insertedCard s e col) s.app.selected_col
        | true =>
          rw [handleInsert_enter_step s e ctrl hok hne hcol] at hstep
          cases hstep
          have hlen0 : (columnCards (insertedApp s e col) s.app.selected_col).length ≠ 0 :=
            fun h0 => hsafe ⟨hmode, rfl, hne, hok, ⟨col, hcol, h0⟩⟩
          refine rowInv_congr (rowInv_set_row (insertedApp s e col)
            (usub1 (columnCards (insertedApp s e col) s.app.selected_col).length)
            (Or.inr ?_)) rfl rfl rfl rfl rfl
          exact usub1_lt (Nat.one_le_iff_ne_zero.2 hlen0)

lemma rowInv_handleSearch {s s' : Sys} {e : Env} {k : KeyEvent}
    (hinv : RowInv s.app) (hstep : handleSearch s e k = some s') : RowInv s'.app := by
  obtain ⟨code, ctrl⟩ := k
  cases code with
  | esc =>
    rw [show handleSearch s e ⟨KeyCode.esc, ctrl⟩ = some { s with app := clampRow { s.app with
        mode := Mode.Normal, search_active := false, search_buf := "",
        message := none } } from rfl] at hstep
    cases hstep
    exact rowInv_clampRow _
  | enter =>
    rw [show handleSearch s e ⟨KeyCode.enter, ctrl⟩ = some { s with app := { s.app with
        mode := Mode.Normal, message := none, selected_row := 0 } } from rfl] at hstep
    cases hstep
    exact rowInv_of_zero rfl
  | backspace =>
    rw [show handleSearch s e ⟨KeyCode.backspace, ctrl⟩ = some { s with app := { s.app with
        search_buf := strPop s.app.search_buf, selected_row := 0 } } from rfl] at hstep
    cases hstep
    exact rowInv_of_zero rfl
  | char c =>
    rw [show handleSearch s e ⟨KeyCode.char c, ctrl⟩ = some { s with app := { s.app with
        search_buf := s.app.search_buf.push c, selected_row := 0 } } from rfl] at hstep
    cases hstep
    exact rowInv_of_zero rfl
  | up =>
    rw [show handleSearch s e ⟨KeyCode.up, ctrl⟩ = some s from rfl] at hstep
    cases hstep
    exact hinv
  | down =>
    rw [show handleSearch s e ⟨KeyCode.down, ctrl⟩ = some s from rfl] at hstep
    cases hstep
    exact hinv
  | left =>
    rw [show handleSearch s e ⟨KeyCode.left, ctrl⟩ = some s from rfl] at hstep
    cases hstep
    exact hinv
  | right =>
    rw [show handleSearch s e ⟨KeyCode.right, ctrl⟩ = some s from rfl] at hstep
    cases hstep
    exact hinv

lemma rowInv_handleHelp {s s' : Sys} {e : Env} {k : KeyEvent}
    (hinv : RowInv s.app) (hstep : handleHelp s e k = some s') : RowInv s'.app := by
  simp only [handleHelp] at hstep
  split at hstep
  · cases hstep
    exact rowInv_congr hinv rfl rfl rfl rfl rfl
  · cases hstep
    exact hinv

lemma rowInv_handleConfirm {s s' : Sys} {e : Env} {k : KeyEvent}
    (hinv : RowInv s.app) (hstep : handleConfirm s e k = some s') : RowInv s'.app := by
  simp only [handleConfirm] at hstep
  split at hstep
  · split at hstep
    · cases hstep
      refine rowInv_congr (rowInv_deleteCurrentCard e ?_) rfl rfl rfl rfl rfl
      exact rowInv_congr hinv rfl rfl rfl rfl rfl
    · cases hstep
      exact rowInv_congr hinv rfl rfl rfl rfl rfl
  · cases hstep
    exact rowInv_congr hinv rfl rfl rfl rfl rfl

lemma rowInv_handleBoardPicker {s s' : Sys} {e : Env} {k : KeyEvent}
    (hinv : RowInv s.app) (hstep : handleBoardPicker s e k = some s') : RowInv s'.app := by
  cases hok : e.saveConfigOk with
  | true =>
    simp only [handleBoardPicker, saveConfigG, hok, if_true] at hstep
    split at hstep
    · cases hstep
      exact rowInv_congr hinv rfl rfl rfl rfl rfl
    · split at hstep
      · split at hstep
        · cases hstep
          exact rowInv_congr hinv rfl rfl rfl rfl rfl
        · cases hstep
          exact hinv
      · split at hstep
        · split at hstep
          · cases hstep
            exact rowInv_congr hinv rfl rfl rfl rfl rfl
          · cases hstep
            exact hinv
        · split at hstep
          · split at hstep
            · split at hstep
              · cases hstep
                exact rowInv_congr hinv rfl rfl rfl rfl rfl
              · split at hstep
                · split at hstep
                  · cases hstep
                    exact rowInv_of_zero rfl
                  · cases hstep
                    exact rowInv_congr hinv rfl rfl rfl rfl rfl
                · cases hstep
                  exact rowInv_congr hinv rfl rfl rfl rfl rfl
            · cases hstep
              exact rowInv_congr hinv rfl rfl rfl rfl rfl
          · split at hstep
            · cases hstep
              exact rowInv_congr hinv rfl rfl rfl rfl rfl
            · cases hstep
              exact hinv
  | false =>
    simp only [handleBoardPicker, saveConfigG, hok, Bool.false_eq_true, if_false] at hstep
    split at hstep
    · cases hstep
      exact rowInv_congr hinv rfl rfl rfl rfl rfl
    · split at hstep
      · split at hstep
        · cases hstep
          exact rowInv_congr hinv rfl rfl rfl rfl rfl
        · cases hstep
          exact hinv
      · split at hstep
        · split at hstep
          · cases hstep
            exact rowInv_congr hinv rfl rfl rfl rfl rfl
          · cases hstep
            exact hinv
        · split at hstep
          · split at hstep
            · split at hstep
              · cases hstep
                exact rowInv_congr hinv rfl rfl rfl rfl rfl
              · split at hstep
                · cases hstep
                  exact rowInv_congr hinv rfl rfl rfl rfl rfl
                · cases hstep
                  exact rowInv_congr hinv rfl rfl rfl rfl rfl
            · cases hstep
              exact rowInv_congr hinv rfl rfl rfl rfl rfl
          · split at hstep
            · cases hstep
              exact rowInv_congr hinv rfl rfl rfl rfl rfl
            · cases hstep
              exact hinv

lemma rowInv_handleKey {s s' : Sys} {e : Env} {k : KeyEvent}
    (hinv : RowInv s.app) (hsafe : SafeKey s e k)
    (hstep : handleKey s e k = some s') : RowInv s'.app := by
  unfold handleKey at hstep
  split at hstep
  · cases hstep
    exact rowInv_congr hinv rfl rfl rfl rfl rfl
  · split at hstep
    · exact rowInv_handleNormal hinv hstep
    · next hmode => exact rowInv_handleInsert hinv hmode hsafe hstep
    · exact rowInv_handleSearch hinv hstep
    · exact rowInv_handleHelp hinv hstep
    · exact rowInv_handleConfirm hinv hstep
    · exact rowInv_handleBoardPicker hinv hstep

/-- Empty single-column board for the C10 initial states. -/
def c10Board : Board := { name := "default", columns := [⟨"todo", none⟩], cards := [] }

/-- Initial system over the empty default board. -/
def c10Sys : Sys :=
  { app := App.new c10Board
    config := ⟨"0.1.0", "default"⟩
    boards := [("default", c10Board)]
    boardSaves := 0 }

/-- States of the row-underflow trace, each extracted from the handler on
the previous one. -/
def c10S1 : Sys := (handleKey c10Sys c7Env ⟨KeyCode.char '/', false⟩).getD c10Sys

/-- Second state of the row-underflow trace. -/
def c10S2 : Sys := (handleKey c10S1 c7Env ⟨KeyCode.char 'z', false⟩).getD c10Sys

/-- Third state of the row-underflow trace. -/
def c10S3 : Sys := (handleKey c10S2 c7Env ⟨KeyCode.enter, false⟩).getD c10Sys

/-- Fourth state of the row-underflow trace. -/
def c10S4 : Sys := (handleKey c10S3 c7Env ⟨KeyCode.char 'a', false⟩).getD c10Sys

/-- Fifth state of the row-underflow trace. -/
def c10S5 : Sys := (handleKey c10S4 c7Env ⟨KeyCode.char 'a', false⟩).getD c10Sys

/-- Final state of the row-underflow trace. -/
def c10S6 : Sys := (handleKey c10S5 c7Env ⟨KeyCode.enter, false⟩).getD c10Sys

/-- The claim as frozen is false: from the initial empty board, the six
keys `/`, `z`, Enter, `a`, `a`, Enter land in a Normal-mode state whose
selected column shows no card while `selected_row` is 2^64 - 1 (the C2
underflow), violating the row invariant. -/
theorem C10_counterexample :
    ¬ (∀ s₀ s : Sys, InitSys s₀ → Reach (fun _ _ _ => True) s₀ s → RowInv s.app) := by
  intro h
  have r1 : Reach (fun _ _ _ => True) c10Sys c10S1 :=
    Reach.step c7Env ⟨KeyCode.char '/', false⟩ (Reach.refl c10Sys) trivial rfl
  have r2 : Reach (fun _ _ _ => True) c10Sys c10S2 :=
    Reach.step c7Env ⟨KeyCode.char 'z', false⟩ r1 trivial rfl
  have r3 : Reach (fun _ _ _ => True) c10Sys c10S3 :=
    Reach.step c7Env ⟨KeyCode.enter, false⟩ r2 trivial rfl
  have r4 : Reach (fun _ _ _ => True) c10Sys c10S4 :=
    Reach.step c7Env ⟨KeyCode.char 'a', false⟩ r3 trivial rfl
  have r5 : Reach (fun _ _ _ => True) c10Sys c10S5 :=
    Reach.step c7Env ⟨KeyCode.char 'a', false⟩ r4 trivial rfl
  have r6 : Reach (fun _ _ _ => True) c10Sys c10S6 :=
    Reach.step c7Env ⟨KeyCode.enter, false⟩ r5 trivial rfl
  have hinv := h c10Sys c10S6 ⟨c10Board, rfl, rfl⟩ r6
  unfold RowInv at hinv
  rw [show (columnCards c10S6.app c10S6.app.selected_col).length = 0 from rfl] at hinv
  rw [if_pos rfl] at hinv
  rw [show c10S6.app.selected_row = u64Mod - 1 from rfl] at hinv
  exact absurd hinv (by decide)

/-- Claim C10 (amended): in every state reachable from an initial state by
handled key events, none of which is an Insert-mode Enter commit whose
fresh card is invisible in an otherwise empty selected column (the C2 row
underflow), the row selection invariant holds: `selected_row` is zero when
the selected column's visible (filtered, non-archived) list is empty, and
otherwise is strictly below that list's length, so `current_card`
addresses a visible card whenever the list is non-empty. -/
theorem C10_row_invariant (s₀ s : Sys) (hinit : InitSys s₀)
    (hreach : Reach SafeKey s₀ s) : RowInv s.app := by
  induction hreach with
  | refl =>
    obtain ⟨b, _, happ⟩ := hinit
    rw [happ]
    exact rowInv_of_zero rfl
  | step e k hr hP hstep ih =>
    exact rowInv_handleKey ih hP hstep

/-- Witness for C10: the invariant theorem applied to the concrete initial
state and the one-step safe trace pressing the search key. -/
theorem C10_witness : RowInv c10S1.app :=
  C10_row_invariant c10Sys c10S1 ⟨c10Board, rfl, rfl⟩
    (Reach.step c7Env ⟨KeyCode.char '/', false⟩ (Reach.refl c10Sys)
      (fun h => Mode.noConfusion h.1) rfl)

end Kuk
